import Mathlib

/-!
Verification development for the PyTerm terminal emulator (pyterm.py).

The Python source is shallowly embedded: pure helpers become Lean
functions, the filesystem and session state become explicit data threaded
through the handlers, and Python exceptions become explicit outcome
constructors.  Strings are treated at ASCII fidelity: the embeddings of
str.lower(), str.strip(), the regular expressions and shlex are exact for
ASCII text (Python additionally handles non-ASCII unicode classes, which no
claim exercises).
-/

namespace PyTermModel

/-- The apostrophe character (written via its code point). -/
def chQ : Char := Char.ofNat 39

/-- The double-quote character. -/
def chDq : Char := Char.ofNat 34

/-- The backslash character. -/
def chBs : Char := Char.ofNat 92

/-- Python str whitespace (ASCII part): space, tab, newline, carriage
return, vertical tab, form feed. -/
def pyIsSpace (c : Char) : Bool :=
  c == ' ' || c == '\t' || c == '\n' || c == '\r' ||
  c == Char.ofNat 11 || c == Char.ofNat 12

/-- Drop characters satisfying bad from both ends (the shape of Python
str.strip with a character set). -/
def stripEnds (bad : Char → Bool) (s : String) : String :=
  String.mk (((s.data.dropWhile bad).reverse.dropWhile bad).reverse)

/-- Python str.strip() with no argument: whitespace off both ends. -/
def pyStrip (s : String) : String := stripEnds pyIsSpace s

/-- Python s.strip(quote-charset) as used by the translator on captured
groups: single and double quotes off both ends. -/
def stripQuoteEnds (s : String) : String :=
  stripEnds (fun c => c == chQ || c == chDq) s

/-- Python str.lower() (ASCII letters; Char.toLower is ASCII-only). -/
def pyLower (s : String) : String := String.mk (s.data.map Char.toLower)

/-- Python regex word character, ASCII: letters, digits, underscore. -/
def isWordChar (c : Char) : Bool := c.isAlphanum || c == '_'

/-- Python str.startswith, at character level. -/
def pyStartsWith (s pre : String) : Bool := pre.data.isPrefixOf s.data

/-- Whether sub occurs as a prefix of some suffix of the character list. -/
def containsSubGo (sub : List Char) : List Char → Bool
  | [] => sub.isEmpty
  | c :: cs => sub.isPrefixOf (c :: cs) || containsSubGo sub cs

/-- Python substring containment (the in operator on str). -/
def containsSub (s sub : String) : Bool := containsSubGo sub.data s.data

/-- Containment of any of several literals: the effect of searching an
alternation of plain literals with re.search. -/
def containsAny (s : String) (subs : List String) : Bool :=
  subs.any (containsSub s)

/-- Left-justify to width n with spaces: Python str.ljust / f-string <n. -/
def padR (s : String) (n : Nat) : String :=
  s ++ String.mk (List.replicate (n - s.length) ' ')

/-- Right-justify to width n with spaces: Python f-string >n. -/
def padL (s : String) (n : Nat) : String :=
  String.mk (List.replicate (n - s.length) ' ') ++ s

/-! ## parse_flags (pyterm.py lines 108-142) -/

/-- Python set.add on the flag set, modelled as an insertion-ordered
duplicate-free list. -/
def addFlag (flags : List String) (f : String) : List String :=
  if f ∈ flags then flags else flags ++ [f]

/-- The keys of short_long_map that start with one dash but not two. -/
def shortKeys (m : List (String × String)) : List String :=
  (m.map Prod.fst).filter (fun k => pyStartsWith k "-" && !(pyStartsWith k "--"))

/-- The keys of short_long_map that start with two dashes. -/
def longKeys (m : List (String × String)) : List String :=
  (m.map Prod.fst).filter (fun k => pyStartsWith k "--")

/-- Dictionary lookup of the canonical symbol for a spelling (the call
sites build dictionaries with distinct keys). -/
def canonOf (m : List (String × String)) (k : String) : String :=
  ((m.find? (fun kv => kv.fst == k)).map Prod.snd).getD k

/-- The inner character loop of parse_flags over a combined short-flag
token a: each known character adds its canonical flag; the first unknown
character appends the whole original token to the remainder and breaks. -/
def shortFlagGo (m : List (String × String)) (a : String)
    (flags : List String) : List Char → List String × List String
  | [] => (flags, [])
  | c :: cs =>
    let tok := String.mk ['-', c]
    if tok ∈ shortKeys m then shortFlagGo m a (addFlag flags (canonOf m tok)) cs
    else (flags, [a])

/-- The main argument loop of parse_flags. -/
def parseFlagsGo (m : List (String × String)) :
    List String → List String → List String → List String × List String
  | flags, rest, [] => (flags, rest)
  | flags, rest, a :: args =>
    if pyStartsWith a "--" then
      if a ∈ longKeys m then parseFlagsGo m (addFlag flags (canonOf m a)) rest args
      else parseFlagsGo m flags (rest ++ [a]) args
    else if pyStartsWith a "-" && a ≠ "-" then
      let fr := shortFlagGo m a flags (a.data.drop 1)
      parseFlagsGo m fr.1 (rest ++ fr.2) args
    else parseFlagsGo m flags (rest ++ [a]) args

/-- parse_flags(args, short_long_map): flags collected as a set, non-flag
arguments kept in order. -/
def parse_flags (args : List String) (m : List (String × String)) :
    List String × List String :=
  parseFlagsGo m [] [] args

/-! ## shlex.split and shlex.quote (Python standard library, POSIX mode,
whitespace_split on, comments off), as dispatch and the translator call
them. -/

/-- The characters shlex treats as token separators. -/
def shlexWs (c : Char) : Bool :=
  c == ' ' || c == '\t' || c == '\r' || c == '\n'

/-- State of the shlex scanner: between tokens, inside a plain word,
inside a quote, or just after an escape character (inDq records whether
the escape occurred inside a double-quoted section). -/
inductive ShSt
  | between
  | word
  | inQuote (q : Char)
  | esc (inDq : Bool)
deriving DecidableEq

/-- The shlex read loop.  tok is the current token reversed, quoted
whether the current token saw a quote, acc the emitted tokens reversed. -/
def shlexGo : List Char → ShSt → List Char → Bool → List String →
    Except String (List String)
  | [], .between, _, _, acc => .ok acc.reverse
  | [], .word, tok, quoted, acc =>
    if tok ≠ [] || quoted then .ok ((String.mk tok.reverse) :: acc).reverse
    else .ok acc.reverse
  | [], .inQuote _, _, _, _ => .error "No closing quotation"
  | [], .esc _, _, _, _ => .error "No escaped character"
  | c :: cs, .between, tok, quoted, acc =>
    if shlexWs c then shlexGo cs .between tok quoted acc
    else if c == chBs then shlexGo cs (.esc false) tok quoted acc
    else if c == chQ || c == chDq then shlexGo cs (.inQuote c) tok quoted acc
    else shlexGo cs .word (c :: tok) quoted acc
  | c :: cs, .word, tok, quoted, acc =>
    if shlexWs c then
      if tok ≠ [] || quoted then
        shlexGo cs .between [] false ((String.mk tok.reverse) :: acc)
      else shlexGo cs .between [] false acc
    else if c == chBs then shlexGo cs (.esc false) tok quoted acc
    else if c == chQ || c == chDq then shlexGo cs (.inQuote c) tok quoted acc
    else shlexGo cs .word (c :: tok) quoted acc
  | c :: cs, .inQuote q, tok, _, acc =>
    if c == q then shlexGo cs .word tok true acc
    else if q == chDq && c == chBs then shlexGo cs (.esc true) tok true acc
    else shlexGo cs (.inQuote q) (c :: tok) true acc
  | c :: cs, .esc false, tok, quoted, acc =>
    shlexGo cs .word (c :: tok) quoted acc
  | c :: cs, .esc true, tok, quoted, acc =>
    if c != chBs && c != chDq then
      shlexGo cs (.inQuote chDq) (c :: chBs :: tok) quoted acc
    else shlexGo cs (.inQuote chDq) (c :: tok) quoted acc

/-- shlex.split(s) in POSIX mode with comments disabled, as dispatch and
the translator fallback call it.  Unbalanced quoting and a trailing
escape raise ValueError with the messages shown. -/
def shlexSplit (s : String) : Except String (List String) :=
  shlexGo s.data .between [] false []

/-- Characters shlex.quote leaves unquoted (the complement of its
_find_unsafe class, ASCII). -/
def shQuoteSafe (c : Char) : Bool :=
  c.isAlphanum || c == '_' || c == '@' || c == '%' || c == '+' || c == '=' ||
  c == ':' || c == ',' || c == '.' || c == '/' || c == '-'

/-- shlex.quote(s). -/
def shlexQuote (s : String) : String :=
  if s = "" then String.mk [chQ, chQ]
  else if s.data.all shQuoteSafe then s
  else String.singleton chQ ++
    String.mk (s.data.foldr (fun c acc =>
      if c == chQ then [chQ, chDq, chQ, chDq, chQ] ++ acc else c :: acc) []) ++
    String.singleton chQ

/-- The quoting join the ai command applies to one command vector before
feeding it back through dispatch. -/
def quoteJoin (vec : List String) : String :=
  String.intercalate " " (vec.map shlexQuote)

/-! ## NLTranslator (pyterm.py lines 155-244)

The clause split re.split(r"\b(?:and then|then|and|;)\b", t, IGNORECASE)
and the nine search templates are embedded through a small backtracking
matcher with Python re semantics for the constructs the patterns use:
ordered alternation, greedy optional groups, greedy and lazy one-or-more,
dot excluding newline, and a dollar matching at the end or before one
final newline. -/

/-- Case-insensitive literal prefix match (pattern lowercase), returning
the remaining characters. -/
def stripPrefixCI : List Char → List Char → Option (List Char)
  | [], cs => some cs
  | _ :: _, [] => none
  | x :: w, c :: cs => if c.toLower == x then stripPrefixCI w cs else none

/-- Exact literal prefix match, returning the remaining characters. -/
def stripPrefixEq : List Char → List Char → Option (List Char)
  | [], cs => some cs
  | _ :: _, [] => none
  | x :: w, c :: cs => if c == x then stripPrefixEq w cs else none

/-- The connector alternatives of the clause-splitting pattern, in the
order Python re tries them, each with its final character (for the
trailing word-boundary test). -/
def connectors : List (List Char × Char) :=
  [("and then".data, 'n'), ("then".data, 'n'), ("and".data, 'd'),
   (";".data, ';')]

/-- Word-character test of an optional character, treating the edge of
the string as a non-word character. -/
def wordOpt : Option Char → Bool
  | none => false
  | some c => isWordChar c

/-- Try the connector alternatives in order at the current position; on a
match whose trailing boundary holds, return the connector's last
character and the remaining text. -/
def tryConns (cs : List Char) :
    List (List Char × Char) → Option (Char × List Char)
  | [] => none
  | (w, lc) :: ws =>
    match stripPrefixCI w cs with
    | some r0 =>
      if isWordChar lc != wordOpt r0.head? then some (lc, r0)
      else tryConns cs ws
    | none => tryConns cs ws

/-- A connector match at the current position: the leading word boundary
(previous character against the first character here), then the ordered
alternatives. -/
def connAt (prev : Option Char) (cs : List Char) : Option (Char × List Char) :=
  if wordOpt prev != wordOpt cs.head? then tryConns cs connectors else none

/-- The scanning loop of re.split on the connector pattern: cur holds the
current piece reversed, prev the previous character for the leading word
boundary.  Each step consumes at least one character, so the fuel (one
more than the text length at the top call) never runs out; the fuel-zero
line is unreachable and returns the remaining text as the final piece. -/
def splitGo (fuel : Nat) (prev : Option Char) (cs : List Char)
    (cur : List Char) (acc : List String) : List String :=
  match fuel, cs with
  | _, [] => acc ++ [String.mk cur.reverse]
  | 0, rest => acc ++ [String.mk (cur.reverse ++ rest)]
  | fuel + 1, c :: cs2 =>
    match connAt prev (c :: cs2) with
    | some p => splitGo fuel (some p.1) p.2 [] (acc ++ [String.mk cur.reverse])
    | none => splitGo fuel (some c) cs2 (c :: cur) acc

/-- re.split(r"\b(?:and then|then|and|;)\b", t, IGNORECASE): the clause
list, empty pieces included. -/
def splitClauses (t : String) : List String :=
  splitGo (t.data.length + 1) none t.data [] []

/-- The regex constructs the translator's patterns use. lit carries an
already-lowercase literal (each pattern is matched against the lowered
clause).  grpPlusG and grpPlusL are the capturing groups (.+) and (.+?);
wsPlus is a greedy one-or-more of whitespace. -/
inductive RE
  | eps
  | lit (s : String)
  | alt (a b : RE)
  | seq (a b : RE)
  | opt (a : RE)
  | wsPlus
  | grpPlusG
  | grpPlusL
  | eos

/-- First success of f over a list of candidate lengths (the
backtracking order of a quantifier). -/
def firstSome (f : Nat → Option (List String)) : List Nat → Option (List String)
  | [] => none
  | n :: ns => (f n) <|> firstSome f ns

/-- CPS backtracking matcher.  caps accumulates captured groups in
order; the continuation receives the remaining text and captures. -/
def reM : RE → List Char → List String →
    (List Char → List String → Option (List String)) → Option (List String)
  | .eps, cs, caps, k => k cs caps
  | .lit s, cs, caps, k =>
    match stripPrefixEq s.data cs with
    | some rest => k rest caps
    | none => none
  | .alt a b, cs, caps, k => (reM a cs caps k) <|> (reM b cs caps k)
  | .seq a b, cs, caps, k => reM a cs caps (fun cs2 caps2 => reM b cs2 caps2 k)
  | .opt a, cs, caps, k => (reM a cs caps k) <|> k cs caps
  | .wsPlus, cs, caps, k =>
    let r := (cs.takeWhile pyIsSpace).length
    firstSome (fun n => k (cs.drop n) caps) ((List.range r).reverse.map (· + 1))
  | .grpPlusG, cs, caps, k =>
    let r := (cs.takeWhile (fun c => c != '\n')).length
    firstSome (fun n => k (cs.drop n) (caps ++ [String.mk (cs.take n)]))
      ((List.range r).reverse.map (· + 1))
  | .grpPlusL, cs, caps, k =>
    let r := (cs.takeWhile (fun c => c != '\n')).length
    firstSome (fun n => k (cs.drop n) (caps ++ [String.mk (cs.take n)]))
      ((List.range r).map (· + 1))
  | .eos, cs, caps, k => if cs = [] ∨ cs = ['\n'] then k cs caps else none

/-- Sequencing of a pattern list. -/
def reSeq (l : List RE) : RE := l.foldr RE.seq RE.eps

/-- Ordered alternation of plain literals. -/
def reAlts : List String → RE
  | [] => RE.eps
  | [s] => RE.lit s
  | s :: rest => RE.alt (RE.lit s) (reAlts rest)

/-- re.search: try the pattern at each position left to right. -/
def reSearchGo (pat : RE) : List Char → Option (List String)
  | [] => reM pat [] [] (fun _ caps => some caps)
  | c :: rest =>
    (reM pat (c :: rest) [] (fun _ caps => some caps)) <|> reSearchGo pat rest

/-- re.search on a string, returning the captured groups on success. -/
def reSearch (pat : RE) (s : String) : Option (List String) :=
  reSearchGo pat s.data

/-- re.fullmatch: the pattern must consume the entire string. -/
def reFullmatch (pat : RE) (s : String) : Option (List String) :=
  reM pat s.data [] (fun cs caps => if cs = [] then some caps else none)

/-- Pattern (?:create|make)\s+(?:a\s+)?(?:folder|directory|dir)\s+(.+)$ -/
def patMkdir : RE :=
  reSeq [reAlts ["create", "make"], .wsPlus, .opt (reSeq [.lit "a", .wsPlus]),
    reAlts ["folder", "directory", "dir"], .wsPlus, .grpPlusG, .eos]

/-- Pattern (?:create|make|touch)\s+(?:a\s+)?(?:file\s+)?(.+)$ -/
def patTouch : RE :=
  reSeq [reAlts ["create", "make", "touch"], .wsPlus,
    .opt (reSeq [.lit "a", .wsPlus]), .opt (reSeq [.lit "file", .wsPlus]),
    .grpPlusG, .eos]

/-- Pattern move\s+(.+?)\s+(?:into|to|inside)\s+(.+)$ -/
def patMv : RE :=
  reSeq [.lit "move", .wsPlus, .grpPlusL, .wsPlus,
    reAlts ["into", "to", "inside"], .wsPlus, .grpPlusG, .eos]

/-- Pattern copy\s+(.+?)\s+to\s+(.+)$ -/
def patCp : RE :=
  reSeq [.lit "copy", .wsPlus, .grpPlusL, .wsPlus, .lit "to", .wsPlus,
    .grpPlusG, .eos]

/-- Pattern (?:delete|remove|rm)\s+(.+)$ -/
def patRm : RE :=
  reSeq [reAlts ["delete", "remove", "rm"], .wsPlus, .grpPlusG, .eos]

/-- Pattern (?:go\s+to|goto|open|enter|cd)\s+(.+)$ -/
def patCd : RE :=
  reSeq [RE.alt (reSeq [.lit "go", .wsPlus, .lit "to"])
    (reAlts ["goto", "open", "enter", "cd"]), .wsPlus, .grpPlusG, .eos]

/-- Pattern (?:list|show\s+files|ls), used with fullmatch. -/
def patLsBare : RE :=
  RE.alt (.lit "list")
    (RE.alt (reSeq [.lit "show", .wsPlus, .lit "files"]) (.lit "ls"))

/-- Pattern (?:list|show)\s+(?:files\s+)?in\s+(.+)$ -/
def patLsIn : RE :=
  reSeq [reAlts ["list", "show"], .wsPlus, .opt (reSeq [.lit "files", .wsPlus]),
    .lit "in", .wsPlus, .grpPlusG, .eos]

/-- Pattern (?:where\s+am\s+i|current\s+(?:dir|folder)|pwd) -/
def patPwd : RE :=
  RE.alt (reSeq [.lit "where", .wsPlus, .lit "am", .wsPlus, .lit "i"])
    (RE.alt (reSeq [.lit "current", .wsPlus, RE.alt (.lit "dir") (.lit "folder")])
      (.lit "pwd"))

/-- group(1).strip().strip(quote-charset) applied to a captured group. -/
def cleanCap (g : String) : String := stripQuoteEnds (pyStrip g)

/-- The template cascade of NLTranslator.translate on one lowered,
stripped clause s: first match wins; none means the clause falls to the
tokenization fallback. -/
def templateOf (s : String) : Option (List String) :=
  match reSearch patMkdir s with
  | some (g1 :: _) => some ["mkdir", cleanCap g1]
  | _ =>
  match (if containsSub s "folder" || containsSub s "directory" ||
      containsSub s "dir" then none else reSearch patTouch s) with
  | some (g1 :: _) => some ["touch", cleanCap g1]
  | _ =>
  match reSearch patMv s with
  | some (g1 :: g2 :: _) => some ["mv", cleanCap g1, cleanCap g2]
  | _ =>
  match reSearch patCp s with
  | some (g1 :: g2 :: _) => some ["cp", cleanCap g1, cleanCap g2]
  | _ =>
  match reSearch patRm s with
  | some (g1 :: _) =>
    if containsAny s ["recurs", "folder", "directory", "dir"] then
      some ["rm", "-r", cleanCap g1]
    else some ["rm", cleanCap g1]
  | _ =>
  match reSearch patCd s with
  | some (g1 :: _) => some ["cd", cleanCap g1]
  | _ =>
  match reFullmatch patLsBare s with
  | some _ => some ["ls"]
  | none =>
  match reSearch patLsIn s with
  | some (g1 :: _) => some ["ls", cleanCap g1]
  | _ =>
  match reSearch patPwd s with
  | some _ => some ["pwd"]
  | none => none

/-- One clause of translate: a template match gives its vector; otherwise
the fallback is shlex tokenization of the raw stripped clause (whose
ValueError propagates), skipped when it yields no words. -/
def translateClause (raw : String) : Except String (Option (List String)) :=
  match templateOf (pyLower (pyStrip raw)) with
  | some vec => .ok (some vec)
  | none =>
    match shlexSplit (pyStrip raw) with
    | .error e => .error e
    | .ok [] => .ok none
    | .ok ws => .ok (some ws)

/-- The clause loop of translate. -/
def translateGo : List String → Except String (List (List String))
  | [] => .ok []
  | raw :: rest =>
    match translateClause raw with
    | .error e => .error e
    | .ok none => translateGo rest
    | .ok (some vec) =>
      match translateGo rest with
      | .error e => .error e
      | .ok plan => .ok (vec :: plan)

/-- NLTranslator.translate: strip, return an empty plan for blank input,
split into clauses and translate each. -/
def translate (text : String) : Except String (List (List String)) :=
  let t := pyStrip text
  if t = "" then .ok [] else translateGo (splitClauses t)

/-! ## Filesystem model

Paths are component lists of absolute, resolved paths; the filesystem is
a list of entries.  Entries are regular files (with content), directories,
or symbolic links to directories (is_dir() follows links, is_symlink()
detects them; a link to a file behaves as a file in every predicate the
commands consult, so it needs no separate constructor).  Permission
errors are not modelled: the environment is assumed permissive. -/

inductive EKind
  | file (content : String)
  | dir
  | symlinkDir
deriving DecidableEq

structure FSEntry where
  path : List String
  kind : EKind
deriving DecidableEq

abbrev FS := List FSEntry

/-- Lookup of the entry at a path (paths are unique in well-formed
states; the first match is taken). -/
def fsFind (fs : FS) (p : List String) : Option FSEntry :=
  fs.find? (fun e => e.path == p)

/-- Path.exists() (follows symlinks; modelled links always resolve). -/
def existsP (fs : FS) (p : List String) : Bool := (fsFind fs p).isSome

/-- Path.is_dir(): a directory or a symlink to one. -/
def isDirP (fs : FS) (p : List String) : Bool :=
  match fsFind fs p with
  | some e => e.kind == .dir || e.kind == .symlinkDir
  | none => false

/-- Path.is_file(). -/
def isFileP (fs : FS) (p : List String) : Bool :=
  match fsFind fs p with
  | some e => match e.kind with | .file _ => true | _ => false
  | none => false

/-- Path.is_symlink(). -/
def isSymlinkP (fs : FS) (p : List String) : Bool :=
  match fsFind fs p with
  | some e => e.kind == .symlinkDir
  | none => false

/-- shutil.rmtree: drop the path and everything below it. -/
def rmtreeFS (fs : FS) (p : List String) : FS :=
  fs.filter (fun e => !(p.isPrefixOf e.path))

/-- Path.unlink: drop the single entry. -/
def unlinkFS (fs : FS) (p : List String) : FS :=
  fs.filter (fun e => e.path != p)

/-- The parent directory exists as a directory (the root [] always
does). -/
def parentIsDir (fs : FS) (p : List String) : Bool :=
  p.dropLast.isEmpty || isDirP fs p.dropLast

/-- The OSError classes the modelled operations raise. -/
inductive PyErr
  | fileExists
  | fileNotFound
  | notADirectory
  | isADirectory
deriving DecidableEq

/-- Representative str(e) renderings (Python prints errno detail; no
claim depends on these texts except through equality of whole runs). -/
def errMsg : PyErr → String
  | .fileExists => "File exists"
  | .fileNotFound => "No such file or directory"
  | .notADirectory => "Not a directory"
  | .isADirectory => "Is a directory"

/-- str(Path) of an absolute resolved path (POSIX rendering). -/
def pathStr (p : List String) : String :=
  "/" ++ String.intercalate "/" p

/-- The nonempty strict prefixes of a path, shortest first. -/
def strictPrefixes (p : List String) : List (List String) :=
  ((List.range p.length).drop 1).map (fun i => p.take i)

/-- Path.mkdir() without parents: the target must be absent and its
parent an existing directory (the root is always a directory). -/
def mkdirOne (fs : FS) (p : List String) : Except PyErr FS :=
  if p.isEmpty then .error .fileExists
  else if existsP fs p then .error .fileExists
  else if !(parentIsDir fs p) then
    (if existsP fs p.dropLast then .error .notADirectory else .error .fileNotFound)
  else .ok (fs ++ [⟨p, .dir⟩])

/-- Path.mkdir(parents=True, exist_ok=True): an existing directory leaf
is tolerated, an existing non-directory leaf raises FileExistsError, an
ancestor existing as a non-directory raises NotADirectoryError, and the
missing prefixes are created. -/
def mkdirParents (fs : FS) (p : List String) : Except PyErr FS :=
  if p.isEmpty then .ok fs
  else if existsP fs p then
    (if isDirP fs p then .ok fs else .error .fileExists)
  else if (strictPrefixes p).any (fun q => existsP fs q && !(isDirP fs q)) then
    .error .notADirectory
  else .ok (fs ++ ((strictPrefixes p ++ [p]).filter
    (fun q => !(existsP fs q))).map (fun q => ⟨q, .dir⟩))

/-! ## Session state, environment and handler outcomes -/

/-- One pending line on standard input for a confirmation prompt: a
typed response, or a KeyboardInterrupt delivered during the read.
End-of-file is the exhausted stream. -/
inductive InLine
  | str (s : String)
  | interrupt
deriving DecidableEq

/-- The mutable world a command invocation sees: the session working
directory, the filesystem, pending confirmation input, and the printed
output (one element per print call / stream write). -/
structure World where
  cwd : List String
  fs : FS
  input : List InLine
  output : List String
deriving DecidableEq

/-- Append one printed line or stream write to the output. -/
def pushOut (w : World) (s : String) : World :=
  { w with output := w.output ++ [s] }

/-- A sequence of print calls, in order. -/
def pushAll (w : World) (ss : List String) : World :=
  ss.foldl pushOut w

/-- The externals of the embedding: safe_expand (home and environment
variable expansion plus resolution), Path.home(), Path.resolve, the
PATH lookup of shutil.which, the persisted history file, the terminal
width, the lstat-derived long-format line of ls (permission bits, link
count, size, mtime), and the difflib-based suggestion helper. -/
structure Env where
  expand : String → List String
  home : List String
  resolveP : List String → List String
  whichPath : String → Option String
  historyLines : List String
  termWidth : Nat
  statLine : List String → String
  suggest : String → String

/-- Outcome of one handler: a normal return code, the SystemExit of
exit, a KeyboardInterrupt that escaped the handler, or another
exception (Python Exception) with its message. -/
inductive HOut
  | ret (w : World) (code : Nat)
  | oexit (w : World) (code : Nat)
  | kb (w : World)
  | exc (w : World) (msg : String)
deriving DecidableEq

/-- The world carried by a handler outcome. -/
def HOut.world : HOut → World
  | .ret w _ => w
  | .oexit w _ => w
  | .kb w => w
  | .exc w _ => w

/-- Outcome of one dispatch call: a status, or a propagating
SystemExit. -/
inductive DOut
  | ret (w : World) (code : Nat)
  | exitSig (w : World) (code : Nat)
deriving DecidableEq

/-- The world carried by a dispatch outcome. -/
def DOut.world : DOut → World
  | .ret w _ => w
  | .exitSig w _ => w

/-- The status of a normal dispatch outcome (SystemExit has none; its
code is the process exit status). -/
def DOut.code : DOut → Nat
  | .ret _ c => c
  | .exitSig _ c => c

/-- confirm(prompt) (pyterm.py lines 145-150): writes the prompt, reads
one line; y/yes (stripped, lowered) is yes, anything else no, EOF is
no, an interrupt propagates (None). -/
def confirmAsk (w : World) (prompt : String) : World × Option Bool :=
  let w2 := pushOut w (prompt ++ " [y/N]: ")
  match w2.input with
  | [] => (w2, some false)
  | .str s :: rest =>
    ({ w2 with input := rest },
      some (pyLower (pyStrip s) == "y" || pyLower (pyStrip s) == "yes"))
  | .interrupt :: rest => ({ w2 with input := rest }, none)

/-! ## Command handlers (PyTerm methods) -/

/-- The registered command names (sorted, as help lists them). -/
def commandNamesSorted : List String :=
  ["ai", "cat", "cd", "clear", "cp", "exit", "help", "history", "ls",
   "mkdir", "mv", "ps", "pwd", "rm", "sysmon", "touch", "which"]

/-- The usage string of each command, as registered. -/
def cmdUsage (n : String) : String :=
  if n = "help" then "help [command]"
  else if n = "exit" then "exit"
  else if n = "pwd" then "pwd"
  else if n = "cd" then "cd [path]"
  else if n = "ls" then "ls [-a] [-l] [-h] [path]"
  else if n = "mkdir" then "mkdir [-p] path ..."
  else if n = "rm" then "rm [-r] [-f] target ..."
  else if n = "mv" then "mv src ... dest"
  else if n = "cp" then "cp [-r] src ... dest"
  else if n = "touch" then "touch file ..."
  else if n = "cat" then "cat file ..."
  else if n = "clear" then "clear"
  else if n = "which" then "which command"
  else if n = "ai" then "ai " ++ String.singleton chDq ++ "instruction sentence..." ++ String.singleton chDq
  else if n = "ps" then "ps"
  else if n = "sysmon" then "sysmon [-w [seconds]]"
  else "history [n]"

/-- The help string of each command, as registered. -/
def cmdHelpText (n : String) : String :=
  if n = "help" then "Show help for commands."
  else if n = "exit" then "Exit the terminal."
  else if n = "pwd" then "Print current working directory."
  else if n = "cd" then "Change directory. Use without args to go to home."
  else if n = "ls" then "List files. -a show hidden, -l long format, -h human sizes."
  else if n = "mkdir" then "Create directories. -p creates parents if needed."
  else if n = "rm" then "Remove files or directories. -r recursive, -f force (no prompt)."
  else if n = "mv" then "Move/rename files or directories."
  else if n = "cp" then "Copy files or directories. -r for directories."
  else if n = "touch" then "Create empty file(s) or update modified time."
  else if n = "cat" then "Print file contents."
  else if n = "clear" then "Clear the screen."
  else if n = "which" then "Locate a command in PATH."
  else if n = "ai" then "Translate a natural sentence to commands and run it."
  else if n = "ps" then "List running processes (best with psutil)."
  else if n = "sysmon" then "Show CPU/Memory. Use -w (watch) to refresh."
  else "Show the last n commands (default 50)."

/-- The aliases of each command (POSIX configuration: clear has no cls
alias). -/
def cmdAliases (n : String) : List String :=
  if n = "exit" then ["quit", "q"] else if n = "ai" then ["do"] else []

/-- Alias resolution through alias_to_name. -/
def resolveAlias (n : String) : String :=
  if n = "quit" || n = "q" then "exit" else if n = "do" then "ai" else n

/-- Membership in the command registry. -/
def isCommandName (n : String) : Bool := commandNamesSorted.contains n

/-- The quoted path rendering used inside rm prompts and cp warnings. -/
def quoteName (p : List String) : String :=
  String.singleton chQ ++ pathStr p ++ String.singleton chQ

/-- The alias suffix of one help line. -/
def aliasSuffix (n : String) : String :=
  if cmdAliases n = [] then ""
  else " (aliases: " ++ String.intercalate ", " (cmdAliases n) ++ ")"

/-- The lines the bare help command prints, one per command. -/
def helpLines : List String :=
  commandNamesSorted.map (fun n =>
    "  " ++ padR n 8 ++ " - " ++ cmdHelpText n ++ aliasSuffix n)

/-- PyTerm._cmd_help. -/
def cmd_help (_env : Env) (w : World) (args : List String) : HOut :=
  match args with
  | [] =>
    let w1 := pushOut w "Available commands:"
    let w2 := pushAll w1 helpLines
    .ret (pushOut w2 ("\nType " ++ String.singleton chQ ++ "help <command>" ++
      String.singleton chQ ++ " for usage.")) 0
  | n0 :: _ =>
    let name := resolveAlias n0
    if isCommandName name then
      .ret (pushOut w ("Usage: " ++ cmdUsage name ++ "\n" ++ cmdHelpText name)) 0
    else .ret (pushOut w ("No such command: " ++ name)) 1

/-- PyTerm._cmd_exit: raise SystemExit(0). -/
def cmd_exit (_env : Env) (w : World) (_args : List String) : HOut :=
  .oexit w 0

/-- PyTerm._cmd_pwd. -/
def cmd_pwd (_env : Env) (w : World) (_args : List String) : HOut :=
  .ret (pushOut w (pathStr w.cwd)) 0

/-- PyTerm._cmd_cd: no argument means home; the target must exist and
be a directory; the session cwd becomes the resolved path. -/
def cmd_cd (env : Env) (w : World) (args : List String) : HOut :=
  let p := match args with | [] => env.home | a :: _ => env.expand a
  if !(existsP w.fs p) then .ret (pushOut w ("No such directory: " ++ pathStr p)) 1
  else if !(isDirP w.fs p) then .ret (pushOut w ("Not a directory: " ++ pathStr p)) 1
  else .ret { w with cwd := env.resolveP p } 0

/-- The flag table of ls. -/
def lsSpec : List (String × String) :=
  [("-a", "-a"), ("--all", "-a"), ("-l", "-l"), ("--long", "-l"),
   ("-h", "-h"), ("--human", "-h"), ("-1", "-1"), ("--one", "-1")]

/-- The last component of a path (Path.name). -/
def lastName (p : List String) : String := p.getLastD ""

/-- The name of a directory entry. -/
def entryName (e : FSEntry) : String := e.path.getLastD ""

/-- A hidden entry: name begins with a dot. -/
def isHiddenName (s : String) : Bool := pyStartsWith s "."

/-- is_dir() of a listed entry. -/
def entryIsDir (e : FSEntry) : Bool :=
  e.kind == .dir || e.kind == .symlinkDir

/-- The first sort-key component: not is_dir(), so directories (0)
precede files (1). -/
def lsRank (e : FSEntry) : Nat := if entryIsDir e then 0 else 1

/-- The comparison of the listing sort: the key tuple
(not is_dir(), name.lower()) compared lexicographically. -/
def lsLE (a b : FSEntry) : Bool :=
  decide (lsRank a < lsRank b) ||
    ((lsRank a == lsRank b) &&
      decide (pyLower (entryName a) ≤ pyLower (entryName b)))

/-- The immediate children of a directory (Path.iterdir). -/
def childrenOf (fs : FS) (target : List String) : List FSEntry :=
  fs.filter (fun e => e.path.length == target.length + 1 && target.isPrefixOf e.path)

/-- Insert x into a sorted list, after every element that compares at
or below it (earlier elements stay before x on ties, which is the
stability contract of Python list.sort). -/
def insertLE (le : FSEntry → FSEntry → Bool) (x : FSEntry) :
    List FSEntry → List FSEntry
  | [] => [x]
  | y :: ys => if le y x then y :: insertLE le x ys else x :: y :: ys

/-- Python's stable list.sort under a total preorder: left-to-right
insertion, ties keeping encounter order. -/
def pyStableSort (le : FSEntry → FSEntry → Bool) (l : List FSEntry) :
    List FSEntry :=
  l.foldl (fun acc x => insertLE le x acc) []

/-- The listed items of a directory: hidden entries dropped unless the
all flag is set, then the stable sort by (not is_dir(), lowered name). -/
def lsItems (showAll : Bool) (entries : List FSEntry) : List FSEntry :=
  pyStableSort lsLE (entries.filter (fun e => showAll || !(isHiddenName (entryName e))))

/-- PyTerm._cmd_ls. -/
def cmd_ls (env : Env) (w : World) (args : List String) : HOut :=
  let pr := parse_flags args lsSpec
  let flags := pr.1
  let target := match pr.2 with | [] => w.cwd | a :: _ => env.expand a
  if !(existsP w.fs target) then
    .ret (pushOut w ("No such file or directory: " ++ pathStr target)) 1
  else if isFileP w.fs target then
    if "-l" ∈ flags then .ret (pushOut w (env.statLine target)) 0
    else .ret (pushOut w (lastName target)) 0
  else
    let items := lsItems ("-a" ∈ flags) (childrenOf w.fs target)
    if "-l" ∈ flags then
      .ret (pushAll w (items.map (fun e => env.statLine e.path))) 0
    else
      let names := items.map entryName
      if "-1" ∈ flags then .ret (pushAll w names) 0
      else
        let colw := (match names with
          | [] => 1
          | _ => (names.map String.length).foldl Nat.max 0) + 2
        let cols := Nat.max 1 (env.termWidth / colw)
        let w2 := pushAll w (names.enum.map (fun q =>
          padR q.2 colw ++ (if (q.1 + 1) % cols == 0 then "\n" else "")))
        .ret (if names.isEmpty then w2 else pushOut w2 "") 0

/-- The flag table of mkdir. -/
def mkdirSpec : List (String × String) := [("-p", "-p"), ("--parents", "-p")]

/-- The per-target loop of mkdir: a FileExistsError prints the
dedicated message, any other error the generic one; either sets the
command status to 1 and processing continues. -/
def mkdirGo (env : Env) (flags : List String) :
    World → Nat → List String → HOut
  | w, code, [] => .ret w code
  | w, code, raw :: rest =>
    let p := env.expand raw
    match (if "-p" ∈ flags then mkdirParents w.fs p else mkdirOne w.fs p) with
    | .ok fs2 => mkdirGo env flags { w with fs := fs2 } code rest
    | .error .fileExists =>
      mkdirGo env flags (pushOut w ("mkdir: " ++ pathStr p ++ ": already exists")) 1 rest
    | .error e =>
      mkdirGo env flags (pushOut w ("mkdir: " ++ pathStr p ++ ": " ++ errMsg e)) 1 rest

/-- PyTerm._cmd_mkdir. -/
def cmd_mkdir (env : Env) (w : World) (args : List String) : HOut :=
  let pr := parse_flags args mkdirSpec
  match pr.2 with
  | [] => .ret (pushOut w "Usage: mkdir [-p] path ...") 2
  | targets => mkdirGo env pr.1 w 0 targets

/-- The flag table of rm. -/
def rmSpec : List (String × String) :=
  [("-r", "-r"), ("--recursive", "-r"), ("-f", "-f"), ("--force", "-f")]

/-- The per-target loop of rm.  An absent target is skipped silently
under force and an error otherwise; a directory (never a symlink)
requires the recursive flag and then confirmation unless forced; other
entries require confirmation unless forced; a declined confirmation
skips the target without error; an interrupt during the prompt
propagates. -/
def rmGo (env : Env) (flags : List String) :
    World → Nat → List String → HOut
  | w, code, [] => .ret w code
  | w, code, raw :: rest =>
    let p := env.expand raw
    if !(existsP w.fs p) && "-f" ∈ flags then rmGo env flags w code rest
    else if !(existsP w.fs p) then
      rmGo env flags (pushOut w ("rm: " ++ pathStr p ++ ": no such file or directory")) 1 rest
    else if isDirP w.fs p && !(isSymlinkP w.fs p) then
      if "-r" ∉ flags then
        rmGo env flags (pushOut w ("rm: " ++ pathStr p ++ ": is a directory (use -r)")) 1 rest
      else if "-f" ∉ flags then
        let ca := confirmAsk w ("rm -r: delete directory " ++ quoteName p ++ " recursively?")
        match ca.2 with
        | none => .kb ca.1
        | some false => rmGo env flags ca.1 code rest
        | some true => rmGo env flags { ca.1 with fs := rmtreeFS ca.1.fs p } code rest
      else rmGo env flags { w with fs := rmtreeFS w.fs p } code rest
    else
      if "-f" ∉ flags then
        let ca := confirmAsk w ("rm: delete file " ++ quoteName p ++ "?")
        match ca.2 with
        | none => .kb ca.1
        | some false => rmGo env flags ca.1 code rest
        | some true => rmGo env flags { ca.1 with fs := unlinkFS ca.1.fs p } code rest
      else rmGo env flags { w with fs := unlinkFS w.fs p } code rest

/-- PyTerm._cmd_rm. -/
def cmd_rm (env : Env) (w : World) (args : List String) : HOut :=
  let pr := parse_flags args rmSpec
  match pr.2 with
  | [] => .ret (pushOut w "Usage: rm [-r] [-f] target ...") 2
  | targets => rmGo env pr.1 w 0 targets

/-- Relocate the subtree at src to dst. -/
def moveSubtree (fs : FS) (src dst : List String) : FS :=
  fs.map (fun e =>
    if src.isPrefixOf e.path then ⟨dst ++ e.path.drop src.length, e.kind⟩ else e)

/-- shutil.move abstracted to relocation: a missing source is an error;
into an existing directory the entry keeps its name and an existing
destination of that name is an error; otherwise the move is a rename.
(Cross-device copying and the platform overwrite corner cases of
os.rename are outside the model.) -/
def shutilMove (fs : FS) (src dst : List String) : Except PyErr FS :=
  if !(existsP fs src) then .error .fileNotFound
  else if isDirP fs dst then
    (if existsP fs (dst ++ [lastName src]) then .error .fileExists
     else .ok (moveSubtree fs src (dst ++ [lastName src])))
  else .ok (moveSubtree fs src dst)

/-- The multi-source loop of mv (the whole loop sits in one try: the
first failure aborts the command). -/
def mvGo (env : Env) (dest : List String) :
    FS → List String → Except PyErr FS
  | fs, [] => .ok fs
  | fs, s :: rest =>
    match shutilMove fs (env.expand s) dest with
    | .error e => .error e
    | .ok fs2 => mvGo env dest fs2 rest

/-- PyTerm._cmd_mv. -/
def cmd_mv (env : Env) (w : World) (args : List String) : HOut :=
  if args.length < 2 then .ret (pushOut w "Usage: mv src ... dest") 2
  else
    let srcs := args.dropLast
    let destP := env.expand (args.getLastD "")
    if srcs.length > 1 then
      if !(existsP w.fs destP) || !(isDirP w.fs destP) then
        .ret (pushOut w "mv: when moving multiple files, destination must be an existing directory") 1
      else
        match mvGo env destP w.fs srcs with
        | .ok fs2 => .ret { w with fs := fs2 } 0
        | .error e => .ret (pushOut w ("mv: " ++ errMsg e)) 1
    else
      match shutilMove w.fs (env.expand (srcs.headD "")) destP with
      | .ok fs2 => .ret { w with fs := fs2 } 0
      | .error e => .ret (pushOut w ("mv: " ++ errMsg e)) 1

/-- Duplicate the subtree at src under dst. -/
def copySubtree (fs : FS) (src dst : List String) : FS :=
  fs ++ (fs.filter (fun e => src.isPrefixOf e.path)).map
    (fun e => ⟨dst ++ e.path.drop src.length, e.kind⟩)

/-- shutil.copytree: the destination must not exist. -/
def copytreeFS (fs : FS) (src dst : List String) : Except PyErr FS :=
  if existsP fs dst then .error .fileExists else .ok (copySubtree fs src dst)

/-- shutil.copy2 of a single entry to an exact path, overwriting. -/
def copy2FS (fs : FS) (src dst : List String) : Except PyErr FS :=
  match fsFind fs src with
  | some e => .ok ((fs.filter (fun x => x.path != dst)) ++ [⟨dst, e.kind⟩])
  | none => .error .fileNotFound

/-- The multi-source loop of cp: a directory without the recursive flag
is skipped with a warning (the status stays 0); an exception aborts the
command with status 1. -/
def cpGoMulti (env : Env) (flags : List String) (destP : List String) :
    World → List String → HOut
  | w, [] => .ret w 0
  | w, s :: rest =>
    let sp := env.expand s
    if isDirP w.fs sp then
      if "-r" ∈ flags then
        match copytreeFS w.fs sp (destP ++ [lastName sp]) with
        | .ok fs2 => cpGoMulti env flags destP { w with fs := fs2 } rest
        | .error e => .ret (pushOut w ("cp: " ++ errMsg e)) 1
      else
        cpGoMulti env flags destP
          (pushOut w ("cp: -r not specified; omitting directory " ++ quoteName sp)) rest
    else
      match copy2FS w.fs sp (destP ++ [lastName sp]) with
      | .ok fs2 => cpGoMulti env flags destP { w with fs := fs2 } rest
      | .error e => .ret (pushOut w ("cp: " ++ errMsg e)) 1

/-- PyTerm._cmd_cp. -/
def cmd_cp (env : Env) (w : World) (args : List String) : HOut :=
  let pr := parse_flags args [("-r", "-r"), ("--recursive", "-r")]
  if pr.2.length < 2 then .ret (pushOut w "Usage: cp [-r] src ... dest") 2
  else
    let srcs := pr.2.dropLast
    let destP := env.expand (pr.2.getLastD "")
    if srcs.length > 1 then
      if !(existsP w.fs destP) || !(isDirP w.fs destP) then
        .ret (pushOut w "cp: when copying multiple files, destination must be an existing directory") 1
      else cpGoMulti env pr.1 destP w srcs
    else
      let sp := env.expand (srcs.headD "")
      if isDirP w.fs sp then
        if "-r" ∈ pr.1 then
          match copytreeFS w.fs sp destP with
          | .ok fs2 => .ret { w with fs := fs2 } 0
          | .error e => .ret (pushOut w ("cp: " ++ errMsg e)) 1
        else
          .ret (pushOut w ("cp: -r not specified; omitting directory " ++ quoteName sp)) 1
      else
        match (if isDirP w.fs destP then copy2FS w.fs sp (destP ++ [lastName sp])
               else copy2FS w.fs sp destP) with
        | .ok fs2 => .ret { w with fs := fs2 } 0
        | .error e => .ret (pushOut w ("cp: " ++ errMsg e)) 1

/-- The per-file loop of touch: parents created as needed, an existing
target only gets its timestamp refreshed (no modelled effect), an
absent one becomes an empty file. -/
def touchGo (env : Env) : World → Nat → List String → HOut
  | w, code, [] => .ret w code
  | w, code, a :: rest =>
    let p := env.expand a
    match mkdirParents w.fs p.dropLast with
    | .error e =>
      touchGo env (pushOut w ("touch: " ++ pathStr p ++ ": " ++ errMsg e)) 1 rest
    | .ok fs2 =>
      if existsP fs2 p then touchGo env { w with fs := fs2 } code rest
      else touchGo env { w with fs := fs2 ++ [⟨p, .file ""⟩] } code rest

/-- PyTerm._cmd_touch. -/
def cmd_touch (env : Env) (w : World) (args : List String) : HOut :=
  match args with
  | [] => .ret (pushOut w "Usage: touch file ...") 2
  | _ => touchGo env w 0 args

/-- The per-file loop of cat: file content is streamed (decoding errors
are substituted upstream, so content is plain text); a directory or a
missing file prints the error and sets status 1. -/
def catGo (env : Env) : World → Nat → List String → HOut
  | w, code, [] => .ret w code
  | w, code, a :: rest =>
    let p := env.expand a
    match fsFind w.fs p with
    | some e =>
      match e.kind with
      | .file content => catGo env (pushOut w content) code rest
      | _ => catGo env (pushOut w ("\ncat: " ++ pathStr p ++ ": " ++ errMsg .isADirectory)) 1 rest
    | none => catGo env (pushOut w ("\ncat: " ++ pathStr p ++ ": " ++ errMsg .fileNotFound)) 1 rest

/-- PyTerm._cmd_cat. -/
def cmd_cat (env : Env) (w : World) (args : List String) : HOut :=
  match args with
  | [] => .ret (pushOut w "Usage: cat file ...") 2
  | _ => catGo env w 0 args

/-- PyTerm._cmd_clear: os.system writes to the terminal directly. -/
def cmd_clear (_env : Env) (w : World) (_args : List String) : HOut :=
  .ret w 0

/-- PyTerm._cmd_which. -/
def cmd_which (env : Env) (w : World) (args : List String) : HOut :=
  match args with
  | [] => .ret (pushOut w "Usage: which command") 2
  | cmd :: _ =>
    match env.whichPath cmd with
    | some p => .ret (pushOut w p) 0
    | none => .ret (pushOut w (cmd ++ " not found in PATH")) 1

/-- PyTerm._cmd_ps in the psutil-absent configuration: the subprocess
fallback (check=False) writes to the terminal itself and the handler
returns 0. -/
def cmd_ps (_env : Env) (w : World) (_args : List String) : HOut :=
  .ret w 0

/-- PyTerm._cmd_sysmon in the psutil-absent configuration. -/
def cmd_sysmon (_env : Env) (w : World) (_args : List String) : HOut :=
  .ret (pushOut w "sysmon: psutil not installed. Install with: pip install psutil") 1

/-- Python int() on simple ASCII integer literals (strip, optional
sign, digits), as the history count parser uses it. -/
def pyIntParse (s : String) : Option Int :=
  let t := pyStrip s
  let t2 := if pyStartsWith t "+" then String.mk (t.data.drop 1) else t
  if t2 = "" || pyStartsWith t2 "+" || (pyStartsWith t "+" && pyStartsWith t2 "-") then none
  else t2.toInt?

/-- PyTerm._cmd_history: the last n persisted lines, numbered. -/
def cmd_history (env : Env) (w : World) (args : List String) : HOut :=
  let n : Int := match args with
    | [] => 50
    | a :: _ => match pyIntParse a with | some k => max 1 k | none => 50
  let lines := env.historyLines
  let start := lines.length - n.toNat
  let w2 := pushAll w (((lines.drop start).enumFrom start).map
    (fun q => padL (toString (q.1 + 1)) 5 ++ "  " ++ q.2))
  .ret w2 0

/-! ## The ai command and the dispatcher -/

/-- Outcome of running a translated plan: the final status, or a
SystemExit raised by an inner dispatch. -/
inductive ROut
  | done (w : World) (rc : Nat)
  | exited (w : World) (code : Nat)
deriving DecidableEq

/-- The execution loop of _cmd_ai over a plan: each vector is re-quoted
into a line and dispatched; a nonzero status stops the loop and becomes
the result; a SystemExit propagates.  The second component records the
dispatched lines and their statuses, in order. -/
def runPlanGo (disp : World → String → DOut) (w : World) :
    List (List String) → ROut × List (String × Nat)
  | [] => (.done w 0, [])
  | v :: rest =>
    let line := quoteJoin v
    match disp w line with
    | .ret w2 rc =>
      if rc = 0 then
        let r := runPlanGo disp w2 rest
        (r.1, (line, rc) :: r.2)
      else (.done w2 rc, [(line, rc)])
    | .exitSig w2 c => (.exited w2 c, [])

/-- PyTerm._cmd_ai: translate the sentence (a tokenizer ValueError
escapes the handler), report an empty plan as a failure, print the
plan, then run it through the dispatcher. -/
def cmd_ai (disp : World → String → DOut) (_env : Env) (w : World)
    (args : List String) : HOut :=
  match args with
  | [] =>
    .ret (pushOut w ("Usage: ai " ++ String.singleton chDq ++
      "instruction sentence..." ++ String.singleton chDq)) 2
  | _ =>
    let sentence := String.intercalate " " args
    match translate sentence with
    | .error e => .exc w e
    | .ok [] => .ret (pushOut w "Could not parse instruction.") 1
    | .ok plan =>
      let w1 := pushOut w ("Plan: " ++ String.intercalate " ; " (plan.map quoteJoin))
      match runPlanGo disp w1 plan with
      | (.done w2 rc, _) => .ret w2 rc
      | (.exited w2 c, _) => .oexit w2 c

/-- The unknown-command message, with the difflib suggestion when one
exists. -/
def unknownMsg (env : Env) (name : String) : String :=
  let sg := env.suggest name
  "Unknown command: " ++ name ++
    (if sg = "" then "" else " (did you mean: " ++ sg ++ "?)")

/-- The except ladder of dispatch around a handler call (pyterm.py
lines 444-455): KeyboardInterrupt prints and returns 130, SystemExit is
re-raised, any other exception prints and returns 1. -/
def handleOutcome (o : HOut) : DOut :=
  match o with
  | .ret w c => .ret w c
  | .kb w => .ret (pushOut w "\nInterrupted.") 130
  | .oexit w c => .exitSig w c
  | .exc w m => .ret (pushOut w ("Error: " ++ m)) 1

/-- The registry lookup self.commands[name].handler(args).  The final
case is history: callers guard with isCommandName, so exactly these
seventeen names reach this point. -/
def runHandler (disp : World → String → DOut) (env : Env) (w : World)
    (name : String) (args : List String) : HOut :=
  if name = "help" then cmd_help env w args
  else if name = "exit" then cmd_exit env w args
  else if name = "pwd" then cmd_pwd env w args
  else if name = "cd" then cmd_cd env w args
  else if name = "ls" then cmd_ls env w args
  else if name = "mkdir" then cmd_mkdir env w args
  else if name = "rm" then cmd_rm env w args
  else if name = "mv" then cmd_mv env w args
  else if name = "cp" then cmd_cp env w args
  else if name = "touch" then cmd_touch env w args
  else if name = "cat" then cmd_cat env w args
  else if name = "clear" then cmd_clear env w args
  else if name = "which" then cmd_which env w args
  else if name = "ai" then cmd_ai disp env w args
  else if name = "ps" then cmd_ps env w args
  else if name = "sysmon" then cmd_sysmon env w args
  else cmd_history env w args

/-- PyTerm.dispatch on one line, parameterized by the dispatch function
the ai handler recurses through: strip, empty is a no-op, tokenize
(parse errors are status 2), resolve aliases, unknown names are status
127 with a suggestion, otherwise run the handler under the except
ladder. -/
def dispatchCore (env : Env) (disp : World → String → DOut) (w : World)
    (line : String) : DOut :=
  let l := pyStrip line
  if l = "" then .ret w 0
  else
    match shlexSplit l with
    | .error e => .ret (pushOut w ("Parse error: " ++ e)) 2
    | .ok [] => .ret w 0
    | .ok (n0 :: args) =>
      let name := resolveAlias n0
      if isCommandName name then handleOutcome (runHandler disp env w name args)
      else .ret (pushOut w (unknownMsg env name)) 127

/-- PyTerm.dispatch, with the Nat the Python recursion-depth budget for
the ai-dispatch recursion; exhausting it is the RecursionError the
dispatcher converts to a status-1 error report. -/
def dispatchGo (env : Env) : Nat → World → String → DOut
  | 0, w, _ => .ret (pushOut w "Error: maximum recursion depth exceeded") 1
  | n + 1, w, line => dispatchCore env (dispatchGo env n) w line

/-- The canonical name a line resolves to, when its first token exists. -/
def resolvedNameOf (line : String) : Option String :=
  let l := pyStrip line
  if l = "" then none
  else
    match shlexSplit l with
    | .error _ => none
    | .ok [] => none
    | .ok (n0 :: _) => some (resolveAlias n0)

/-! ## A concrete sample session for witnesses and counterexamples -/

/-- A sample environment: each path string expands to one component,
resolution is the identity, PATH is empty, no history, an 80-column
terminal. -/
def envS : Env :=
  { expand := fun s => [s]
    home := ["home"]
    resolveP := id
    whichPath := fun _ => none
    historyLines := []
    termWidth := 80
    statLine := fun p => pathStr p
    suggest := fun _ => "" }

/-- A sample filesystem: a directory tmp, a file f, a directory d. -/
def fsS : FS :=
  [⟨["tmp"], .dir⟩, ⟨["f"], .file "hi"⟩, ⟨["d"], .dir⟩]

/-- A sample world over fsS. -/
def wS : World :=
  { cwd := ["tmp"], fs := fsS, input := [], output := [] }

/-! ## Helper lemmas -/

/-- The combined short-flag loop on a token whose characters split as a
known prefix ks, a first unknown character c, and an arbitrary tail:
the known prefix contributes its canonical flags, the whole token goes
to the remainder, and the tail is never examined. -/
theorem shortFlagGo_spec (m : List (String × String)) (a : String) :
    ∀ (ks : List Char) (flags : List String) (c : Char) (cs2 : List Char),
      (∀ x ∈ ks, (String.mk ['-', x]) ∈ shortKeys m) →
      (String.mk ['-', c]) ∉ shortKeys m →
      shortFlagGo m a flags (ks ++ c :: cs2) =
        (ks.foldl (fun fl x => addFlag fl (canonOf m (String.mk ['-', x]))) flags,
          [a]) := by
  intro ks
  induction ks with
  | nil =>
    intro flags c cs2 _ hu
    simp only [List.nil_append, shortFlagGo, List.foldl_nil]
    rw [if_neg hu]
  | cons k ks ih =>
    intro flags c cs2 hk hu
    simp only [List.cons_append, shortFlagGo, List.foldl_cons]
    rw [if_pos (hk k (List.mem_cons_self _ _))]
    exact ih _ c cs2 (fun x hx => hk x (List.mem_cons_of_mem _ hx)) hu

/-- A clause translation fails only through the fallback tokenizer: no
template matched and shlex raised. -/
theorem translateClause_error_inv (raw : String) (e : String)
    (h : translateClause raw = .error e) :
    templateOf (pyLower (pyStrip raw)) = none ∧
      shlexSplit (pyStrip raw) = .error e := by
  unfold translateClause at h
  cases ht : templateOf (pyLower (pyStrip raw)) with
  | some vec => rw [ht] at h; exact absurd h (by simp)
  | none =>
    rw [ht] at h
    cases hs : shlexSplit (pyStrip raw) with
    | error e2 =>
      rw [hs] at h
      simp at h
      exact ⟨rfl, by rw [h]⟩
    | ok ws =>
      rw [hs] at h
      cases ws with
      | nil => simp at h
      | cons a l => simp at h

/-- The clause loop of the translator either succeeds or some clause
matches no template and its fallback tokenization raises. -/
theorem translateGo_total :
    ∀ cls : List String,
      (∃ plan, translateGo cls = .ok plan) ∨
      ∃ raw ∈ cls, templateOf (pyLower (pyStrip raw)) = none ∧
        ∃ e, shlexSplit (pyStrip raw) = .error e := by
  intro cls
  induction cls with
  | nil => exact Or.inl ⟨[], rfl⟩
  | cons raw rest ih =>
    cases hc : translateClause raw with
    | error e =>
      obtain ⟨ht, hs⟩ := translateClause_error_inv raw e hc
      exact Or.inr ⟨raw, List.mem_cons_self _ _, ht, e, hs⟩
    | ok o =>
      cases o with
      | none =>
        cases ih with
        | inl hok =>
          obtain ⟨plan, hp⟩ := hok
          exact Or.inl ⟨plan, by simp [translateGo, hc, hp]⟩
        | inr hbad =>
          obtain ⟨r, hr, h2⟩ := hbad
          exact Or.inr ⟨r, List.mem_cons_of_mem _ hr, h2⟩
      | some vec =>
        cases ih with
        | inl hok =>
          obtain ⟨plan, hp⟩ := hok
          exact Or.inl ⟨vec :: plan, by simp [translateGo, hc, hp]⟩
        | inr hbad =>
          obtain ⟨r, hr, h2⟩ := hbad
          exact Or.inr ⟨r, List.mem_cons_of_mem _ hr, h2⟩

/-- A string that does not start with one dash does not start with two. -/
theorem pyStartsWith_two_of_one (t : String)
    (h : pyStartsWith t "-" = false) : pyStartsWith t "--" = false := by
  simp only [pyStartsWith] at h ⊢
  generalize hg : t.data = l at h ⊢
  cases l with
  | nil => rfl
  | cons c cs =>
    simp [List.isPrefixOf] at h ⊢
    tauto

/-! ## The claims -/

/-- Claim C1, counterexample: with only -l in the spec, the combined
token -lx leaves the literal -lx in the remainder but contributes the
canonical flag -l to the flag set, where the claim asserts an empty
contribution. -/
theorem claim_C1_counterexample :
    parse_flags ["-lx"] [("-l", "-l")] = (["-l"], ["-lx"]) ∧
    (parse_flags ["-lx"] [("-l", "-l")]).1 ≠ [] := by
  exact ⟨by decide, by decide⟩

/-- Claim C1 (amended): when a combined short-flag token (one leading
dash, not two, not the bare dash) has a first character whose dash
spelling is unknown, expansion aborts there: the whole original token
is appended to the remainder and no later character of the token is
interpreted, while the canonical flags of the known characters before
the unknown one are retained in the flag set. -/
theorem claim_C1_thm (m : List (String × String)) (a : String)
    (ks : List Char) (c : Char) (cs2 : List Char)
    (hdata : a.data = '-' :: (ks ++ c :: cs2))
    (h1 : pyStartsWith a "-" = true)
    (h2 : pyStartsWith a "--" = false)
    (h3 : a ≠ "-")
    (hk : ∀ x ∈ ks, (String.mk ['-', x]) ∈ shortKeys m)
    (hu : (String.mk ['-', c]) ∉ shortKeys m) :
    parse_flags [a] m =
      (ks.foldl (fun fl x => addFlag fl (canonOf m (String.mk ['-', x]))) [],
        [a]) := by
  have hdrop : a.data.drop 1 = ks ++ c :: cs2 := by rw [hdata]; rfl
  have hsf := shortFlagGo_spec m a ks [] c cs2 hk hu
  simp [parse_flags, parseFlagsGo, h1, h2, h3, hdrop, hsf]

/-- Claim C1 witness: the amended statement at the concrete token -lxa
with -l and -a known: the flag set keeps -l, the token lands whole in
the remainder, and the trailing a is never read. -/
theorem claim_C1_witness :
    parse_flags ["-lxa"] [("-l", "-l"), ("-a", "-a")] = (["-l"], ["-lxa"]) := by
  have h := claim_C1_thm [("-l", "-l"), ("-a", "-a")] "-lxa" ['l'] 'x' ['a']
    (by decide) (by decide) (by decide) (by decide) (by decide) (by decide)
  exact h.trans (by decide)

/-- Claim C3, counterexample: the translator raises on a sentence whose
only clause matches no template and carries an unbalanced double quote;
the fallback shlex tokenization raises ValueError, so translate does
not return normally. -/
theorem claim_C3_counterexample :
    translate ("foo " ++ String.singleton chDq ++ "bar") =
      .error "No closing quotation" := rfl

/-- Claim C3 (amended): the translator returns normally except when
some clause matches no template and its fallback whitespace/quote
tokenization itself raises (unbalanced quote or trailing escape), in
which case that tokenizer error propagates; a blank sentence yields the
empty plan, and a clause matching no template whose tokenization
succeeds contributes exactly its token list as a literal vector. -/
theorem claim_C3_thm :
    (translate "" = .ok []) ∧
    (∀ text : String, pyStrip text = "" → translate text = .ok []) ∧
    (∀ text : String,
      (∃ plan, translate text = .ok plan) ∨
      ∃ raw ∈ splitClauses (pyStrip text),
        templateOf (pyLower (pyStrip raw)) = none ∧
        ∃ e, shlexSplit (pyStrip raw) = .error e) ∧
    (∀ (raw : String) (ws : List String),
      templateOf (pyLower (pyStrip raw)) = none →
      shlexSplit (pyStrip raw) = .ok ws → ws ≠ [] →
      translateClause raw = .ok (some ws)) := by
  refine ⟨rfl, ?_, ?_, ?_⟩
  · intro text h
    simp [translate, h]
  · intro text
    by_cases h : pyStrip text = ""
    · exact Or.inl ⟨[], by simp [translate, h]⟩
    · cases translateGo_total (splitClauses (pyStrip text)) with
      | inl hok =>
        obtain ⟨plan, hp⟩ := hok
        exact Or.inl ⟨plan, by simp [translate, h, hp]⟩
      | inr hbad => exact Or.inr hbad
  · intro raw ws ht hs hne
    unfold translateClause
    rw [ht, hs]
    cases ws with
    | nil => exact absurd rfl hne
    | cons a l => rfl

/-- Claim C4: the dispatcher's except ladder converts any handler
exception to a printed message and status 1 (the session survives),
re-raises the exit command's SystemExit, and converts a
KeyboardInterrupt to status 130; dispatching the exit line always
produces the propagating exit signal, and an interrupt delivered during
an rm confirmation prompt yields status 130 at the dispatch level. -/
theorem claim_C4_thm :
    (∀ (w : World) (m : String),
      handleOutcome (.exc w m) = .ret (pushOut w ("Error: " ++ m)) 1) ∧
    (∀ w : World, handleOutcome (.kb w) = .ret (pushOut w "\nInterrupted.") 130) ∧
    (∀ (w : World) (c : Nat), handleOutcome (.oexit w c) = .exitSig w c) ∧
    (∀ (env : Env) (n : Nat) (w : World),
      dispatchGo env (n + 1) w "exit" = .exitSig w 0) ∧
    (dispatchGo envS 1 { wS with input := [InLine.interrupt] } "rm f" =
      DOut.ret
        { cwd := wS.cwd, fs := wS.fs, input := [],
          output := ["rm: delete file " ++ quoteName ["f"] ++ "? [y/N]: ",
            "\nInterrupted."] } 130) := by
  refine ⟨fun w m => rfl, fun w => rfl, fun w c => rfl, fun env n w => rfl, by decide⟩

/-- Claim C10: cd with no argument targets the home directory: when it
exists and is a directory the session cwd becomes its resolved path
with status 0; a missing home or a non-directory home prints an error
and returns 1, leaving the cwd untouched (the printed world differs
from w only in output). -/
theorem claim_C10_thm (env : Env) (w : World) :
    (existsP w.fs env.home = true → isDirP w.fs env.home = true →
      cmd_cd env w [] = .ret { w with cwd := env.resolveP env.home } 0) ∧
    (existsP w.fs env.home = false →
      cmd_cd env w [] =
        .ret (pushOut w ("No such directory: " ++ pathStr env.home)) 1) ∧
    (existsP w.fs env.home = true → isDirP w.fs env.home = false →
      cmd_cd env w [] =
        .ret (pushOut w ("Not a directory: " ++ pathStr env.home)) 1) ∧
    (∀ s : String, (pushOut w s).cwd = w.cwd) := by
  refine ⟨?_, ?_, ?_, fun s => rfl⟩
  · intro h1 h2
    simp [cmd_cd, h1, h2]
  · intro h1
    simp [cmd_cd, h1]
  · intro h1 h2
    simp [cmd_cd, h1, h2]

/-- Claim C10 witness: in the sample session, cd with no argument
enters /home when it exists and fails with status 1 when it does not. -/
theorem claim_C10_witness :
    (cmd_cd envS { wS with fs := fsS ++ [⟨["home"], .dir⟩] } [] =
      .ret { wS with fs := fsS ++ [⟨["home"], .dir⟩], cwd := ["home"] } 0) ∧
    (cmd_cd envS wS [] = .ret (pushOut wS "No such directory: /home") 1) := by
  have h1 := (claim_C10_thm envS { wS with fs := fsS ++ [⟨["home"], .dir⟩] }).1
    (by decide) (by decide)
  have h2 := (claim_C10_thm envS wS).2.1 (by decide)
  exact ⟨h1.trans (by decide), h2.trans (by decide)⟩

/-- Claim C5: removing an absent target with the force flag is a silent
per-target success (world and status untouched) and the single-target
command returns 0; without force the target reports no such file with
per-target and overall status 1. -/
theorem claim_C5_thm (env : Env) (w : World) (t : String) (code : Nat)
    (flags : List String)
    (hmiss : existsP w.fs (env.expand t) = false)
    (hd1 : pyStartsWith t "-" = false) :
    ("-f" ∈ flags → rmGo env flags w code [t] = .ret w code) ∧
    ("-f" ∉ flags → rmGo env flags w code [t] =
      .ret (pushOut w ("rm: " ++ pathStr (env.expand t) ++
        ": no such file or directory")) 1) ∧
    (cmd_rm env w ["-f", t] = .ret w 0) ∧
    (cmd_rm env w [t] =
      .ret (pushOut w ("rm: " ++ pathStr (env.expand t) ++
        ": no such file or directory")) 1) := by
  have hd2 := pyStartsWith_two_of_one t hd1
  have hstep1 : parse_flags ["-f", t] rmSpec = parseFlagsGo rmSpec ["-f"] [] [t] := rfl
  have hstep2 : parseFlagsGo rmSpec ["-f"] [] [t] = (["-f"], [t]) := by
    simp [parseFlagsGo, hd1, hd2]
  have hstep3 : parse_flags [t] rmSpec = ([], [t]) := by
    simp [parse_flags, parseFlagsGo, hd1, hd2]
  refine ⟨?_, ?_, ?_, ?_⟩
  · intro hf
    simp [rmGo, hmiss, hf]
  · intro hf
    simp [rmGo, hmiss, hf]
  · simp [cmd_rm, hstep1.trans hstep2, rmGo, hmiss]
  · simp [cmd_rm, hstep3, rmGo, hmiss]

/-- Claim C5 witness: in the sample session, rm -f missing.txt returns
0 with no output and rm missing.txt reports the error with status 1. -/
theorem claim_C5_witness :
    (cmd_rm envS wS ["-f", "missing.txt"] = .ret wS 0) ∧
    (cmd_rm envS wS ["missing.txt"] =
      .ret (pushOut wS "rm: /missing.txt: no such file or directory") 1) := by
  have h := claim_C5_thm envS wS "missing.txt" 0 [] (by decide) (by decide)
  exact ⟨h.2.2.1, h.2.2.2.trans (by decide)⟩

/-- Claim C7: the ai plan loop dispatches the re-quoted vectors
strictly in order (the trace lines are the quoted take-prefix of the
plan), every dispatched status before the last is zero, the overall
result of a normally finishing run is the last status (zero for an
empty plan), a zero result means the whole plan ran, and never more
than the plan is dispatched. -/
theorem claim_C7_thm (disp : World → String → DOut) (w : World)
    (plan : List (List String)) :
    ((runPlanGo disp w plan).2.map Prod.fst =
      (plan.take (runPlanGo disp w plan).2.length).map quoteJoin) ∧
    (∀ q ∈ (runPlanGo disp w plan).2.dropLast, q.2 = 0) ∧
    (∀ (w2 : World) (rc : Nat), (runPlanGo disp w plan).1 = .done w2 rc →
      rc = ((runPlanGo disp w plan).2.map Prod.snd).getLastD 0) ∧
    (∀ w2 : World, (runPlanGo disp w plan).1 = .done w2 0 →
      (runPlanGo disp w plan).2.length = plan.length) ∧
    ((runPlanGo disp w plan).2.length ≤ plan.length) := by
  induction plan generalizing w with
  | nil =>
    refine ⟨rfl, by simp [runPlanGo], ?_, ?_, by simp [runPlanGo]⟩
    · intro w2 rc h
      simp only [runPlanGo] at h ⊢
      cases h
      rfl
    · intro w2 _
      rfl
  | cons v rest ih =>
    cases hd : disp w (quoteJoin v) with
    | ret w2 rc =>
      by_cases hrc : rc = 0
      · subst hrc
        obtain ⟨ih1, ih2, ih3, ih4, ih5⟩ := ih w2
        have hr : runPlanGo disp w (v :: rest) =
            ((runPlanGo disp w2 rest).1,
              (quoteJoin v, 0) :: (runPlanGo disp w2 rest).2) := by
          simp [runPlanGo, hd]
        rw [hr]
        refine ⟨?_, ?_, ?_, ?_, ?_⟩
        · simp only [List.map_cons, List.length_cons, List.take_succ_cons]
          rw [ih1]
        · intro q hq
          cases hl : (runPlanGo disp w2 rest).2 with
          | nil => simp [hl] at hq
          | cons x xs =>
            rw [hl] at hq
            rw [List.dropLast_cons₂] at hq
            rcases List.mem_cons.mp hq with hq1 | hq2
            · rw [hq1]
            · apply ih2
              rw [hl]
              exact hq2
        · intro w3 rc3 h3
          have hh := ih3 w3 rc3 h3
          rw [List.map_cons, List.getLastD_cons]
          exact hh
        · intro w3 h3
          have := ih4 w3 h3
          simp [this]
        · simpa using Nat.succ_le_succ ih5
      · have hr : runPlanGo disp w (v :: rest) =
            (.done w2 rc, [(quoteJoin v, rc)]) := by
          simp [runPlanGo, hd, hrc]
        rw [hr]
        refine ⟨by simp, by simp, ?_, ?_, by simp⟩
        · intro w3 rc3 h3
          cases h3
          simp [List.getLastD]
        · intro w3 h3
          cases h3
          exact absurd rfl hrc
    | exitSig w2 c =>
      have hr : runPlanGo disp w (v :: rest) = (.exited w2 c, []) := by
        simp [runPlanGo, hd]
      rw [hr]
      refine ⟨by simp, by simp, ?_, ?_, by simp⟩
      · intro w3 rc3 h3
        cases h3
      · intro w3 h3
        cases h3

/-- Claim C7 witness: the trace properties applied to a concrete
two-vector plan whose second vector fails, under a dispatch that
reports pwd as 0 and anything else as 1. -/
theorem claim_C7_witness :
    (runPlanGo (fun w l => if l = "pwd" then .ret w 0 else .ret w 1) wS
      [["pwd"], ["nope"], ["pwd"]]).2.map Prod.fst = ["pwd", "nope"] := by
  have h := claim_C7_thm
    (fun w l => if l = "pwd" then .ret w 0 else .ret w 1) wS
    [["pwd"], ["nope"], ["pwd"]]
  exact (h.1).trans (by decide)

/-- Claim C2, counterexample: rm on an existing directory without the
recursive flag and without force does not consult the confirmation
prompt at all (the queued empty answer is never read) and finishes with
status 1, where the claim promises a prompt and status 0 on empty
input. -/
theorem claim_C2_counterexample :
    cmd_rm envS { wS with input := [InLine.str ""] } ["d"] =
      HOut.ret
        { cwd := wS.cwd, fs := wS.fs, input := [InLine.str ""],
          output := ["rm: /d: is a directory (use -r)"] } 1 := by
  decide

/-- Claim C2 (amended): for an existing target without force, rm blocks
on the yes/no confirmation prompt when the target is not a directory
(or is a symlink), or when it is a directory and the recursive flag is
set; the default on an empty answer or end-of-file is no, and declining
leaves the filesystem untouched with status 0 and exactly the one
prompt printed and at most one input consumed.  A directory target
without the recursive flag is instead an immediate error: status 1 and
no prompt. -/
theorem claim_C2_thm (env : Env) (w : World) (t : String)
    (hd1 : pyStartsWith t "-" = false)
    (hex : existsP w.fs (env.expand t) = true)
    (hin : w.input = [] ∨ ∃ rest, w.input = InLine.str "" :: rest) :
    ((isDirP w.fs (env.expand t) = false ∨
        isSymlinkP w.fs (env.expand t) = true) →
      cmd_rm env w [t] =
        .ret { w with
                input := w.input.tail,
                output := w.output ++
                  ["rm: delete file " ++ quoteName (env.expand t) ++ "? [y/N]: "] } 0) ∧
    (isDirP w.fs (env.expand t) = true → isSymlinkP w.fs (env.expand t) = false →
      cmd_rm env w ["-r", t] =
        .ret { w with
                input := w.input.tail,
                output := w.output ++
                  ["rm -r: delete directory " ++ quoteName (env.expand t) ++
                    " recursively? [y/N]: "] } 0) ∧
    (isDirP w.fs (env.expand t) = true → isSymlinkP w.fs (env.expand t) = false →
      cmd_rm env w [t] =
        .ret (pushOut w ("rm: " ++ pathStr (env.expand t) ++
          ": is a directory (use -r)")) 1) := by
  have hd2 := pyStartsWith_two_of_one t hd1
  have hstep3 : parse_flags [t] rmSpec = ([], [t]) := by
    simp [parse_flags, parseFlagsGo, hd1, hd2]
  have hstepr : parse_flags ["-r", t] rmSpec = (["-r"], [t]) := by
    have h0 : parse_flags ["-r", t] rmSpec = parseFlagsGo rmSpec ["-r"] [] [t] := rfl
    rw [h0]
    simp [parseFlagsGo, hd1, hd2]
  have hconf : ∀ prompt : String,
      confirmAsk w prompt = ({ w with
        input := w.input.tail,
        output := w.output ++ [prompt ++ " [y/N]: "] }, some false) := by
    intro prompt
    rcases hin with hi | ⟨rest, hi⟩
    · unfold confirmAsk
      simp [pushOut, hi]
    · unfold confirmAsk
      simp [pushOut, hi]
      decide
  refine ⟨?_, ?_, ?_⟩
  · intro hnd
    have hdirb : (isDirP w.fs (env.expand t) && !(isSymlinkP w.fs (env.expand t))) = false := by
      rcases hnd with h | h <;> simp [h]
    simp [cmd_rm, hstep3, rmGo, hex, hdirb, hconf]
    rw [String.append_assoc]
    rfl
  · intro hdi hsy
    have hdirb : (isDirP w.fs (env.expand t) && !(isSymlinkP w.fs (env.expand t))) = true := by
      simp [hdi, hsy]
    simp [cmd_rm, hstepr, rmGo, hex, hdirb, hconf]
    rw [String.append_assoc]
    rfl
  · intro hdi hsy
    have hdirb : (isDirP w.fs (env.expand t) && !(isSymlinkP w.fs (env.expand t))) = true := by
      simp [hdi, hsy]
    simp [cmd_rm, hstep3, rmGo, hex, hdirb]

/-- Claim C2 witness: the amended statement at the sample session: a
declined (empty-answer) rm of the file f keeps it with status 0 after
one prompt, a declined (end-of-file) rm -r of the directory d keeps it
with status 0, and rm of d without -r errors with status 1 and no
prompt. -/
theorem claim_C2_witness :
    (cmd_rm envS { wS with input := [InLine.str ""] } ["f"] =
      HOut.ret
        { cwd := wS.cwd, fs := wS.fs, input := [],
          output := ["rm: delete file " ++ quoteName ["f"] ++ "? [y/N]: "] } 0) ∧
    (cmd_rm envS wS ["-r", "d"] =
      HOut.ret
        { cwd := wS.cwd, fs := wS.fs, input := [],
          output := ["rm -r: delete directory " ++ quoteName ["d"] ++
            " recursively? [y/N]: "] } 0) ∧
    (cmd_rm envS wS ["d"] =
      HOut.ret
        { cwd := wS.cwd, fs := wS.fs, input := [],
          output := ["rm: /d: is a directory (use -r)"] } 1) := by
  have h1 := (claim_C2_thm envS { wS with input := [InLine.str ""] } "f"
    (by decide) (by decide) (Or.inr ⟨[], by decide⟩)).1 (Or.inl (by decide))
  have h2 := (claim_C2_thm envS wS "d" (by decide) (by decide)
    (Or.inl (by decide))).2.1 (by decide) (by decide)
  have h3 := (claim_C2_thm envS wS "d" (by decide) (by decide)
    (Or.inl (by decide))).2.2 (by decide) (by decide)
  exact ⟨h1.trans (by decide), h2.trans (by decide), h3.trans (by decide)⟩

/-- Appending entries: a path exists in a concatenation when it exists
in either part. -/
theorem existsP_append (fs1 fs2 : FS) (q : List String) :
    existsP (fs1 ++ fs2) q = (existsP fs1 q || existsP fs2 q) := by
  simp only [existsP, fsFind, List.find?_append]
  cases fs1.find? (fun e => e.path == q) <;> simp

/-- A path in the list is present among the directory entries built
from it. -/
theorem existsP_mapDir (l : List (List String)) (q : List String)
    (hq : q ∈ l) :
    existsP (l.map (fun p => (⟨p, .dir⟩ : FSEntry))) q = true := by
  induction l with
  | nil => exact absurd hq (List.not_mem_nil q)
  | cons a as ih =>
    rcases List.mem_cons.mp hq with h | h
    · subst h
      simp [existsP, fsFind, List.find?]
    · by_cases ha : a = q
      · subst ha
        simp [existsP, fsFind, List.find?]
      · have := ih h
        simp only [List.map_cons, existsP, fsFind, List.find?] at this ⊢
        have hne : ((⟨a, .dir⟩ : FSEntry).path == q) = false := by
          simp [ha]
        rw [hne]
        exact this

/-- Claim C6: make-directory semantics.  Without the parents flag an
existing target is an error for that target only (status 1), a missing
intermediate is an error with nothing created, and a failed target does
not stop the next target from being processed; with the parents flag
the missing prefixes are created, an already-existing directory leaf is
tolerated silently, the status is 0, and every prefix of the target
exists afterwards. -/
theorem claim_C6_thm (env : Env) (w : World) (t t1 t2 : String) :
    (pyStartsWith t "-" = false → existsP w.fs (env.expand t) = true →
      cmd_mkdir env w [t] =
        .ret (pushOut w ("mkdir: " ++ pathStr (env.expand t) ++
          ": already exists")) 1) ∧
    (pyStartsWith t "-" = false → existsP w.fs (env.expand t) = false →
      parentIsDir w.fs (env.expand t) = false →
      existsP w.fs (env.expand t).dropLast = false →
      cmd_mkdir env w [t] =
        .ret (pushOut w ("mkdir: " ++ pathStr (env.expand t) ++ ": " ++
          errMsg .fileNotFound)) 1) ∧
    (pyStartsWith t1 "-" = false → pyStartsWith t2 "-" = false →
      existsP w.fs (env.expand t1) = true →
      env.expand t2 ≠ [] → existsP w.fs (env.expand t2) = false →
      parentIsDir w.fs (env.expand t2) = true →
      cmd_mkdir env w [t1, t2] =
        .ret { w with
                fs := w.fs ++ [⟨env.expand t2, .dir⟩],
                output := w.output ++ ["mkdir: " ++ pathStr (env.expand t1) ++
                  ": already exists"] } 1) ∧
    (pyStartsWith t "-" = false → env.expand t ≠ [] →
      (∀ q ∈ strictPrefixes (env.expand t),
        existsP w.fs q = true → isDirP w.fs q = true) →
      (existsP w.fs (env.expand t) = true → isDirP w.fs (env.expand t) = true) →
      cmd_mkdir env w ["-p", t] =
        .ret { w with fs :=
          (if existsP w.fs (env.expand t) then w.fs else
            w.fs ++ ((strictPrefixes (env.expand t) ++ [env.expand t]).filter
              (fun q => !(existsP w.fs q))).map
                (fun q => (⟨q, .dir⟩ : FSEntry))) } 0 ∧
      (existsP w.fs (env.expand t) = false →
        ∀ q ∈ strictPrefixes (env.expand t) ++ [env.expand t],
          existsP (w.fs ++ ((strictPrefixes (env.expand t) ++
            [env.expand t]).filter (fun q2 => !(existsP w.fs q2))).map
              (fun q2 => (⟨q2, .dir⟩ : FSEntry))) q = true)) := by
  refine ⟨?_, ?_, ?_, ?_⟩
  · intro hd1 hex
    have hd2 := pyStartsWith_two_of_one t hd1
    have hstep : parse_flags [t] mkdirSpec = ([], [t]) := by
      simp [parse_flags, parseFlagsGo, hd1, hd2]
    have hmk : mkdirOne w.fs (env.expand t) = .error .fileExists := by
      unfold mkdirOne
      split
      · rfl
      · simp [hex]
    simp [cmd_mkdir, hstep, mkdirGo, hmk]
  · intro hd1 hmiss hpar hpd
    have hd2 := pyStartsWith_two_of_one t hd1
    have hstep : parse_flags [t] mkdirSpec = ([], [t]) := by
      simp [parse_flags, parseFlagsGo, hd1, hd2]
    have hpe : (env.expand t).isEmpty = false := by
      cases hp : env.expand t with
      | nil =>
        rw [hp] at hpar
        simp [parentIsDir] at hpar
      | cons a l => rfl
    have hmk : mkdirOne w.fs (env.expand t) = .error .fileNotFound := by
      unfold mkdirOne
      simp [hpe, hmiss, hpar, hpd]
    simp [cmd_mkdir, hstep, mkdirGo, hmk]
  · intro hd1 hd2 hex1 hne2 hm2 hpar2
    have hdd1 := pyStartsWith_two_of_one t1 hd1
    have hdd2 := pyStartsWith_two_of_one t2 hd2
    have hstep : parse_flags [t1, t2] mkdirSpec = ([], [t1, t2]) := by
      simp [parse_flags, parseFlagsGo, hd1, hdd1, hd2, hdd2]
    have hmk1 : mkdirOne w.fs (env.expand t1) = .error .fileExists := by
      unfold mkdirOne
      split
      · rfl
      · simp [hex1]
    have hpe2 : (env.expand t2).isEmpty = false := by
      cases hp : env.expand t2 with
      | nil => exact absurd hp hne2
      | cons a l => rfl
    have hmk2 : mkdirOne w.fs (env.expand t2) =
        .ok (w.fs ++ [⟨env.expand t2, .dir⟩]) := by
      unfold mkdirOne
      simp [hpe2, hm2, hpar2]
    simp [cmd_mkdir, hstep, mkdirGo, hmk1, hmk2, pushOut]
  · intro hd1 hne hall hleaf
    have hd2 := pyStartsWith_two_of_one t hd1
    have hstep : parse_flags ["-p", t] mkdirSpec = (["-p"], [t]) := by
      have h0 : parse_flags ["-p", t] mkdirSpec =
          parseFlagsGo mkdirSpec ["-p"] [] [t] := rfl
      rw [h0]
      simp [parseFlagsGo, hd1, hd2]
    have hpe : (env.expand t).isEmpty = false := by
      cases hp : env.expand t with
      | nil => exact absurd hp hne
      | cons a l => rfl
    constructor
    · by_cases hex : existsP w.fs (env.expand t) = true
      · have hld := hleaf hex
        have hmk : mkdirParents w.fs (env.expand t) = .ok w.fs := by
          unfold mkdirParents
          simp [hpe, hex, hld]
        simp [cmd_mkdir, hstep, mkdirGo, hmk, hex]
      · have hexf : existsP w.fs (env.expand t) = false := by
          cases h : existsP w.fs (env.expand t)
          · rfl
          · exact absurd h hex
        have hany : ((strictPrefixes (env.expand t)).any
            (fun q => existsP w.fs q && !(isDirP w.fs q))) = false := by
          rw [List.any_eq_false]
          intro q hq
          cases hqe : existsP w.fs q
          · simp
          · have := hall q hq hqe
            simp [this]
        have hmk : mkdirParents w.fs (env.expand t) =
            .ok (w.fs ++ ((strictPrefixes (env.expand t) ++
              [env.expand t]).filter (fun q => !(existsP w.fs q))).map
                (fun q => (⟨q, .dir⟩ : FSEntry))) := by
          unfold mkdirParents
          simp [hpe, hexf, hany]
        simp [cmd_mkdir, hstep, mkdirGo, hmk, hexf]
    · intro hexf q hq
      rw [existsP_append]
      by_cases hqe : existsP w.fs q = true
      · simp [hqe]
      · have hqf : existsP w.fs q = false := by
          cases h : existsP w.fs q
          · rfl
          · exact absurd h hqe
        have hqmem : q ∈ (strictPrefixes (env.expand t) ++
            [env.expand t]).filter (fun q2 => !(existsP w.fs q2)) :=
          List.mem_filter.mpr ⟨hq, by simp [hqf]⟩
        have hmap := existsP_mapDir ((strictPrefixes (env.expand t) ++
          [env.expand t]).filter (fun q2 => !(existsP w.fs q2))) q hqmem
        rw [hmap]
        simp

/-- Claim C6 witness: in the sample session, mkdir d errors on the
existing directory, mkdir a/b (expanded to the two-component path
[a, b]) fails without -p because the intermediate is missing, a failed
first target still lets the second be created, and mkdir -p x creates
the missing directory with status 0. -/
theorem claim_C6_witness :
    (cmd_mkdir envS wS ["d"] =
      .ret (pushOut wS "mkdir: /d: already exists") 1) ∧
    (cmd_mkdir { envS with expand := fun s => ["a", s] } wS ["b"] =
      .ret (pushOut wS ("mkdir: /a/b: " ++ errMsg .fileNotFound)) 1) ∧
    (cmd_mkdir envS wS ["d", "x"] =
      HOut.ret
        { cwd := wS.cwd, fs := fsS ++ [⟨["x"], .dir⟩], input := wS.input,
          output := ["mkdir: /d: already exists"] } 1) ∧
    (cmd_mkdir envS wS ["-p", "x"] =
      HOut.ret
        { cwd := wS.cwd, fs := fsS ++ [⟨["x"], .dir⟩], input := wS.input,
          output := [] } 0) := by
  have h1 := (claim_C6_thm envS wS "d" "d" "x").1 (by decide) (by decide)
  have h2 := (claim_C6_thm { envS with expand := fun s => ["a", s] } wS
    "b" "b" "b").2.1 (by decide) (by decide) (by decide) (by decide)
  have h3 := (claim_C6_thm envS wS "d" "d" "x").2.2.1 (by decide) (by decide)
    (by decide) (by decide) (by decide) (by decide)
  have h4 := ((claim_C6_thm envS wS "x" "d" "x").2.2.2 (by decide) (by decide)
    (by decide) (by decide)).1
  exact ⟨h1.trans (by decide), h2.trans (by decide), h3.trans (by decide),
    h4.trans (by decide)⟩

/-- Membership through one insertion step of the stable sort. -/
theorem mem_insertLE (le : FSEntry → FSEntry → Bool) (x : FSEntry) :
    ∀ (l : List FSEntry) (y : FSEntry), y ∈ insertLE le x l ↔ y = x ∨ y ∈ l := by
  intro l
  induction l with
  | nil => intro y; simp [insertLE]
  | cons a as ih =>
    intro y
    simp only [insertLE]
    split
    · rw [List.mem_cons, ih y, List.mem_cons]
      tauto
    · simp only [List.mem_cons]

/-- Insertion keeps the list pairwise-ordered under a total transitive
comparison. -/
theorem pairwise_insertLE (le : FSEntry → FSEntry → Bool)
    (htot : ∀ a b, (le a b || le b a) = true)
    (htr : ∀ a b c, le a b = true → le b c = true → le a c = true)
    (x : FSEntry) :
    ∀ l : List FSEntry, List.Pairwise (fun a b => le a b = true) l →
      List.Pairwise (fun a b => le a b = true) (insertLE le x l) := by
  intro l
  induction l with
  | nil => intro _; simp [insertLE]
  | cons a as ih =>
    intro hp
    rw [List.pairwise_cons] at hp
    obtain ⟨ha, has⟩ := hp
    simp only [insertLE]
    split
    · rename_i hle
      rw [List.pairwise_cons]
      refine ⟨?_, ih has⟩
      intro y hy
      rcases (mem_insertLE le x as y).mp hy with h | h
      · subst h; exact hle
      · exact ha y h
    · rename_i hle
      have hxa : le x a = true := by
        have h2 := htot a x
        cases hax : le a x
        · cases hxa2 : le x a
          · rw [hax, hxa2] at h2; simp at h2
          · rfl
        · exact absurd hax hle
      rw [List.pairwise_cons]
      refine ⟨?_, List.pairwise_cons.mpr ⟨ha, has⟩⟩
      intro y hy
      rcases List.mem_cons.mp hy with h | h
      · subst h; exact hxa
      · exact htr x a y hxa (ha y h)

/-- The stable sort is a permutation at the level of membership. -/
theorem mem_pyStableSort (le : FSEntry → FSEntry → Bool) :
    ∀ (l : List FSEntry) (y : FSEntry), y ∈ pyStableSort le l ↔ y ∈ l := by
  have key : ∀ (l acc : List FSEntry) (y : FSEntry),
      y ∈ l.foldl (fun acc2 x => insertLE le x acc2) acc ↔ y ∈ acc ∨ y ∈ l := by
    intro l
    induction l with
    | nil => intro acc y; simp
    | cons x xs ih =>
      intro acc y
      rw [List.foldl_cons, ih (insertLE le x acc) y, mem_insertLE le x acc y,
        List.mem_cons]
      tauto
  intro l y
  rw [pyStableSort, key l [] y]
  simp

/-- The stable sort is pairwise-ordered under a total transitive
comparison. -/
theorem pairwise_pyStableSort (le : FSEntry → FSEntry → Bool)
    (htot : ∀ a b, (le a b || le b a) = true)
    (htr : ∀ a b c, le a b = true → le b c = true → le a c = true)
    (l : List FSEntry) :
    List.Pairwise (fun a b => le a b = true) (pyStableSort le l) := by
  have key : ∀ (l acc : List FSEntry),
      List.Pairwise (fun a b => le a b = true) acc →
      List.Pairwise (fun a b => le a b = true)
        (l.foldl (fun acc2 x => insertLE le x acc2) acc) := by
    intro l
    induction l with
    | nil => intro acc h; simpa using h
    | cons x xs ih =>
      intro acc h
      rw [List.foldl_cons]
      exact ih _ (pairwise_insertLE le htot htr x acc h)
  exact key l [] (by simp)

/-- The listing comparison is total. -/
theorem lsLE_total (a b : FSEntry) : (lsLE a b || lsLE b a) = true := by
  by_cases h1 : lsRank a < lsRank b
  · simp [lsLE, h1]
  · by_cases h2 : lsRank b < lsRank a
    · simp [lsLE, h2]
    · have he : lsRank a = lsRank b := by omega
      rcases le_total (pyLower (entryName a)) (pyLower (entryName b)) with hle | hle
      · simp [lsLE, he, hle]
      · simp [lsLE, he, hle]

/-- The listing comparison is transitive. -/
theorem lsLE_trans (a b c : FSEntry) (h1 : lsLE a b = true)
    (h2 : lsLE b c = true) : lsLE a c = true := by
  unfold lsLE at *
  simp only [Bool.or_eq_true, Bool.and_eq_true, decide_eq_true_eq,
    beq_iff_eq] at *
  rcases h1 with h1 | ⟨h1e, h1s⟩ <;> rcases h2 with h2 | ⟨h2e, h2s⟩
  · left; omega
  · left; omega
  · left; omega
  · right; exact ⟨by omega, le_trans h1s h2s⟩

/-- Claim C8: the listed entries of a directory are exactly the entries
that are unhidden or shown by the all flag, and the listing is ordered
with every directory before every file and, among entries of the same
kind, by case-insensitive (lowered) name. -/
theorem claim_C8_thm (showAll : Bool) (entries : List FSEntry) :
    (∀ e : FSEntry, e ∈ lsItems showAll entries ↔
      (e ∈ entries ∧ (showAll = true ∨ isHiddenName (entryName e) = false))) ∧
    List.Pairwise (fun a b => entryIsDir b = true → entryIsDir a = true)
      (lsItems showAll entries) ∧
    List.Pairwise
      (fun a b => entryIsDir a = entryIsDir b →
        pyLower (entryName a) ≤ pyLower (entryName b))
      (lsItems showAll entries) := by
  have hpw := pairwise_pyStableSort lsLE lsLE_total lsLE_trans
    (entries.filter (fun e => showAll || !(isHiddenName (entryName e))))
  refine ⟨?_, ?_, ?_⟩
  · intro e
    rw [lsItems, mem_pyStableSort, List.mem_filter]
    constructor
    · rintro ⟨h1, h2⟩
      refine ⟨h1, ?_⟩
      cases hs : showAll
      · rw [hs] at h2
        simp at h2
        exact Or.inr h2
      · exact Or.inl rfl
    · rintro ⟨h1, h2⟩
      refine ⟨h1, ?_⟩
      rcases h2 with h2 | h2 <;> simp [h2]
  · rw [lsItems]
    refine hpw.imp ?_
    intro a b h hb
    unfold lsLE at h
    simp only [Bool.or_eq_true, Bool.and_eq_true, decide_eq_true_eq,
      beq_iff_eq] at h
    have hrb : lsRank b = 0 := by simp [lsRank, hb]
    rcases h with h | ⟨he, _⟩
    · rw [hrb] at h
      exact absurd h (by omega)
    · have hra : lsRank a = 0 := by omega
      cases hda : entryIsDir a
      · rw [lsRank, hda] at hra
        simp at hra
      · rfl
  · rw [lsItems]
    refine hpw.imp ?_
    intro a b h hd
    unfold lsLE at h
    simp only [Bool.or_eq_true, Bool.and_eq_true, decide_eq_true_eq,
      beq_iff_eq] at h
    have hre : lsRank a = lsRank b := by simp [lsRank, hd]
    rcases h with h | ⟨_, hs⟩
    · exact absurd h (by omega)
    · exact hs

/-- Claim C8 witness: a concrete listing: without the all flag the
hidden entry is excluded while the plain file is kept (an instance of
the membership characterization). -/
theorem claim_C8_witness :
    ((⟨["tmp", "x"], .file ""⟩ : FSEntry) ∈ lsItems false
      [⟨["tmp", "x"], .file ""⟩, ⟨["tmp", ".h"], .file ""⟩]) ∧
    ¬ ((⟨["tmp", ".h"], .file ""⟩ : FSEntry) ∈ lsItems false
      [⟨["tmp", "x"], .file ""⟩, ⟨["tmp", ".h"], .file ""⟩]) := by
  constructor
  · exact ((claim_C8_thm false
      [⟨["tmp", "x"], .file ""⟩, ⟨["tmp", ".h"], .file ""⟩]).1 _).mpr
      ⟨by decide, Or.inr (by decide)⟩
  · intro hmem
    have h := ((claim_C8_thm false
      [⟨["tmp", "x"], .file ""⟩, ⟨["tmp", ".h"], .file ""⟩]).1 _).mp hmem
    rcases h.2 with h2 | h2
    · exact absurd h2 (by decide)
    · exact absurd h2 (by decide)

/-! ## Working-directory frame lemmas (one per non-cd, non-ai handler) -/

theorem pushOut_cwd (w : World) (s : String) : (pushOut w s).cwd = w.cwd := rfl

theorem pushAll_cwd : ∀ (ss : List String) (w : World),
    (pushAll w ss).cwd = w.cwd := by
  intro ss
  induction ss with
  | nil => intro w; rfl
  | cons s rest ih =>
    intro w
    exact ih (pushOut w s)

theorem confirmAsk_cwd (w : World) (p : String) :
    ((confirmAsk w p).1).cwd = w.cwd := by
  unfold confirmAsk pushOut
  dsimp only
  cases hi : w.input with
  | nil => rfl
  | cons i rest => cases i <;> rfl

set_option maxHeartbeats 1600000 in
theorem cmdHelp_cwd (env : Env) (w : World) (args : List String) :
    ((cmd_help env w args).world).cwd = w.cwd := by
  match args with
  | [] =>
    unfold cmd_help
    exact (pushOut_cwd _ _).trans ((pushAll_cwd _ _).trans (pushOut_cwd _ _))
  | a :: rest =>
    unfold cmd_help
    dsimp only
    by_cases hc : isCommandName (resolveAlias a) = true
    · rw [if_pos hc]
      exact pushOut_cwd w _
    · rw [if_neg hc]
      exact pushOut_cwd w _

theorem cmdExit_cwd (env : Env) (w : World) (args : List String) :
    ((cmd_exit env w args).world).cwd = w.cwd := rfl

theorem cmdPwd_cwd (env : Env) (w : World) (args : List String) :
    ((cmd_pwd env w args).world).cwd = w.cwd := rfl

theorem cmdLs_cwd (env : Env) (w : World) (args : List String) :
    ((cmd_ls env w args).world).cwd = w.cwd := by
  unfold cmd_ls
  dsimp only
  split
  · rfl
  · split
    · split <;> rfl
    · split
      · simp only [HOut.world, pushAll_cwd]
      · split
        · simp only [HOut.world, pushAll_cwd]
        · split <;> simp only [HOut.world, pushOut_cwd, pushAll_cwd]

theorem mkdirGo_cwd (env : Env) (flags : List String) :
    ∀ (ts : List String) (w : World) (code : Nat),
      ((mkdirGo env flags w code ts).world).cwd = w.cwd := by
  intro ts
  induction ts with
  | nil => intro w code; rfl
  | cons a rest ih =>
    intro w code
    simp only [mkdirGo]
    cases hm : (if "-p" ∈ flags then mkdirParents w.fs (env.expand a)
        else mkdirOne w.fs (env.expand a)) with
    | ok fs2 => exact ih { w with fs := fs2 } code
    | error e => cases e <;> exact ih _ 1

theorem cmdMkdir_cwd (env : Env) (w : World) (args : List String) :
    ((cmd_mkdir env w args).world).cwd = w.cwd := by
  unfold cmd_mkdir
  dsimp only
  cases hp : (parse_flags args mkdirSpec).2 with
  | nil => rfl
  | cons a l => exact mkdirGo_cwd env _ _ w 0

theorem rmGo_cwd (env : Env) (flags : List String) :
    ∀ (ts : List String) (w : World) (code : Nat),
      ((rmGo env flags w code ts).world).cwd = w.cwd := by
  intro ts
  induction ts with
  | nil => intro w code; rfl
  | cons a rest ih =>
    intro w code
    simp only [rmGo]
    repeat' split
    all_goals
      first
        | exact ih _ _
        | exact confirmAsk_cwd w _
        | (rw [ih]; exact confirmAsk_cwd w _)
        | rfl

theorem cmdRm_cwd (env : Env) (w : World) (args : List String) :
    ((cmd_rm env w args).world).cwd = w.cwd := by
  unfold cmd_rm
  dsimp only
  cases hp : (parse_flags args rmSpec).2 with
  | nil => rfl
  | cons a l => exact rmGo_cwd env _ _ w 0

theorem cmdMv_cwd (env : Env) (w : World) (args : List String) :
    ((cmd_mv env w args).world).cwd = w.cwd := by
  unfold cmd_mv
  dsimp only
  repeat' split
  all_goals rfl

theorem cpGoMulti_cwd (env : Env) (flags : List String) (destP : List String) :
    ∀ (srcs : List String) (w : World),
      ((cpGoMulti env flags destP w srcs).world).cwd = w.cwd := by
  intro srcs
  induction srcs with
  | nil => intro w; rfl
  | cons s rest ih =>
    intro w
    simp only [cpGoMulti]
    repeat' split
    all_goals first | exact ih _ | rfl

theorem cmdCp_cwd (env : Env) (w : World) (args : List String) :
    ((cmd_cp env w args).world).cwd = w.cwd := by
  unfold cmd_cp
  dsimp only
  repeat' split
  all_goals first | exact cpGoMulti_cwd env _ _ _ w | rfl

theorem touchGo_cwd (env : Env) :
    ∀ (ts : List String) (w : World) (code : Nat),
      ((touchGo env w code ts).world).cwd = w.cwd := by
  intro ts
  induction ts with
  | nil => intro w code; rfl
  | cons a rest ih =>
    intro w code
    simp only [touchGo]
    repeat' split
    all_goals exact ih _ _

theorem cmdTouch_cwd (env : Env) (w : World) (args : List String) :
    ((cmd_touch env w args).world).cwd = w.cwd := by
  unfold cmd_touch
  cases args with
  | nil => rfl
  | cons a l => exact touchGo_cwd env (a :: l) w 0

theorem catGo_cwd (env : Env) :
    ∀ (ts : List String) (w : World) (code : Nat),
      ((catGo env w code ts).world).cwd = w.cwd := by
  intro ts
  induction ts with
  | nil => intro w code; rfl
  | cons a rest ih =>
    intro w code
    simp only [catGo]
    repeat' split
    all_goals exact ih _ _

theorem cmdCat_cwd (env : Env) (w : World) (args : List String) :
    ((cmd_cat env w args).world).cwd = w.cwd := by
  unfold cmd_cat
  cases args with
  | nil => rfl
  | cons a l => exact catGo_cwd env (a :: l) w 0

theorem cmdClear_cwd (env : Env) (w : World) (args : List String) :
    ((cmd_clear env w args).world).cwd = w.cwd := rfl

theorem cmdWhich_cwd (env : Env) (w : World) (args : List String) :
    ((cmd_which env w args).world).cwd = w.cwd := by
  unfold cmd_which
  repeat' split
  all_goals rfl

theorem cmdPs_cwd (env : Env) (w : World) (args : List String) :
    ((cmd_ps env w args).world).cwd = w.cwd := rfl

theorem cmdSysmon_cwd (env : Env) (w : World) (args : List String) :
    ((cmd_sysmon env w args).world).cwd = w.cwd := rfl

theorem cmdHistory_cwd (env : Env) (w : World) (args : List String) :
    ((cmd_history env w args).world).cwd = w.cwd := by
  unfold cmd_history
  exact pushAll_cwd _ w

theorem handleOutcome_cwd (o : HOut) :
    ((handleOutcome o).world).cwd = (o.world).cwd := by
  cases o <;> rfl

set_option maxHeartbeats 1600000 in
/-- Every handler except cd and ai leaves the session working directory
unchanged. -/
theorem runHandler_cwd (disp : World → String → DOut) (env : Env)
    (w : World) (name : String) (args : List String)
    (hcd : name ≠ "cd") (hai : name ≠ "ai") :
    ((runHandler disp env w name args).world).cwd = w.cwd := by
  unfold runHandler
  by_cases h1 : name = "help"
  · rw [if_pos h1]; exact cmdHelp_cwd env w args
  rw [if_neg h1]
  by_cases h2 : name = "exit"
  · rw [if_pos h2]; exact cmdExit_cwd env w args
  rw [if_neg h2]
  by_cases h3 : name = "pwd"
  · rw [if_pos h3]; exact cmdPwd_cwd env w args
  rw [if_neg h3]
  rw [if_neg hcd]
  by_cases h5 : name = "ls"
  · rw [if_pos h5]; exact cmdLs_cwd env w args
  rw [if_neg h5]
  by_cases h6 : name = "mkdir"
  · rw [if_pos h6]; exact cmdMkdir_cwd env w args
  rw [if_neg h6]
  by_cases h7 : name = "rm"
  · rw [if_pos h7]; exact cmdRm_cwd env w args
  rw [if_neg h7]
  by_cases h8 : name = "mv"
  · rw [if_pos h8]; exact cmdMv_cwd env w args
  rw [if_neg h8]
  by_cases h9 : name = "cp"
  · rw [if_pos h9]; exact cmdCp_cwd env w args
  rw [if_neg h9]
  by_cases h10 : name = "touch"
  · rw [if_pos h10]; exact cmdTouch_cwd env w args
  rw [if_neg h10]
  by_cases h11 : name = "cat"
  · rw [if_pos h11]; exact cmdCat_cwd env w args
  rw [if_neg h11]
  by_cases h12 : name = "clear"
  · rw [if_pos h12]; exact cmdClear_cwd env w args
  rw [if_neg h12]
  by_cases h13 : name = "which"
  · rw [if_pos h13]; exact cmdWhich_cwd env w args
  rw [if_neg h13]
  rw [if_neg hai]
  by_cases h15 : name = "ps"
  · rw [if_pos h15]; exact cmdPs_cwd env w args
  rw [if_neg h15]
  by_cases h16 : name = "sysmon"
  · rw [if_pos h16]; exact cmdSysmon_cwd env w args
  rw [if_neg h16]
  exact cmdHistory_cwd env w args

/-- Claim C9, counterexample: the line ai go to tmp resolves to the ai
command, not cd, yet dispatching it moves the session working directory
(the translated plan dispatches a cd vector). -/
theorem claim_C9_counterexample :
    (resolvedNameOf "ai go to tmp" = some "ai") ∧
    ((dispatchGo envS 2 { wS with cwd := [] } "ai go to tmp").world).cwd =
      ["tmp"] ∧
    (["tmp"] : List String) ≠ ({ wS with cwd := [] } : World).cwd := by
  refine ⟨by decide, by decide, by decide⟩

/-- Claim C9 (amended): the session working directory is changed only
by the change-directory command, possibly reached through an ai/do
plan: dispatching any line whose resolved command is neither cd nor ai
leaves the working directory unchanged, whatever the outcome. -/
theorem claim_C9_thm (env : Env) (n : Nat) (w : World) (line : String)
    (hcd : resolvedNameOf line ≠ some "cd")
    (hai : resolvedNameOf line ≠ some "ai") :
    ((dispatchGo env n w line).world).cwd = w.cwd := by
  cases n with
  | zero => rfl
  | succ k =>
    show ((dispatchCore env (dispatchGo env k) w line).world).cwd = w.cwd
    unfold dispatchCore
    dsimp only
    by_cases hl : pyStrip line = ""
    · rw [if_pos hl]
      rfl
    · rw [if_neg hl]
      cases hsp : shlexSplit (pyStrip line) with
      | error e => rfl
      | ok parts =>
        cases parts with
        | nil => rfl
        | cons n0 args =>
          dsimp only
          have hres : resolvedNameOf line = some (resolveAlias n0) := by
            unfold resolvedNameOf
            dsimp only
            rw [if_neg hl, hsp]
          have hn1 : resolveAlias n0 ≠ "cd" := by
            intro hEq
            exact hcd (by rw [hres, hEq])
          have hn2 : resolveAlias n0 ≠ "ai" := by
            intro hEq
            exact hai (by rw [hres, hEq])
          by_cases hc : isCommandName (resolveAlias n0) = true
          · rw [if_pos hc, handleOutcome_cwd]
            exact runHandler_cwd (dispatchGo env k) env w
              (resolveAlias n0) args hn1 hn2
          · rw [if_neg hc]
            rfl

/-- Claim C9 witness: the amended frame property at a concrete non-cd,
non-ai line: ls leaves the working directory where it was. -/
theorem claim_C9_witness :
    ((dispatchGo envS 1 wS "ls").world).cwd = wS.cwd := by
  exact claim_C9_thm envS 1 wS "ls" (by decide) (by decide)

end PyTermModel
